import Mathlib

/-!
Shallow embedding of the reservation engine of this repository
(`src/services/reservations/{timeSlots,settings,engine,tableAssignment}.ts`
together with the availability service and the reservation repository that
ship in the same source tree).

Conventions of the embedding:
* JavaScript numbers that hold whole minutes, party sizes, capacities and
  timestamps are modelled as `Int`; `NaN`-producing paths (failed parses)
  are modelled with `Option`, matching the `Number.isFinite` guards of the
  source.
* `localStorage`-backed collections are modelled as explicit values that
  are threaded through the functions (`List Reservation` for the
  reservation store, an explicit `CapacityConfig` for the per-tenant
  settings that `getReservationSettings` would return).
* JavaScript truthiness tests on optional strings/numbers are modelled
  explicitly (`none` or empty string / zero are falsy).
-/

namespace RestBot

/-! ### TimeMath (`timeSlots.ts`) -/

inductive SlotRoundingMode where
  | nearest
  | floor
  | ceil
deriving DecidableEq, Repr

/-- Numeric value of a digit character, as in `Number(ch)`. -/
def dg (c : Char) : Int := (c.toNat : Int) - 48

/-- `String.prototype.trim()`: strip leading and trailing whitespace.
(JavaScript strips all Unicode whitespace; the inputs handled here only
ever carry ASCII whitespace, which `Char.isWhitespace` covers.) -/
def jsTrim (s : String) : List Char :=
  ((s.toList.dropWhile Char.isWhitespace).reverse.dropWhile Char.isWhitespace).reverse

/-- Range check shared by all shapes accepted by `parseTimeToMinutes`:
hours `0..23`, minutes `0..59` (the source also checks `h < 0`/`mm < 0`,
which we keep even though digit values are nonnegative). -/
def mkHM (h mm : Int) : Option Int :=
  if 0 ≤ h ∧ h ≤ 23 ∧ 0 ≤ mm ∧ mm ≤ 59 then some (h * 60 + mm) else none

/-- `parseTimeToMinutes` of `timeSlots.ts`: the regex
`^(\d{1,2})(?::(\d{1,2}))?$` applied to the trimmed input, returning
minutes from midnight; `NaN` (invalid input) is modelled as `none`. -/
def parseTimeToMinutes (input : String) : Option Int :=
  match jsTrim input with
  | [a] =>
      if a.isDigit then mkHM (dg a) 0 else none
  | [a, b] =>
      if a.isDigit && b.isDigit then mkHM (10 * dg a + dg b) 0 else none
  | [a, b, c] =>
      if a.isDigit && b = ':' && c.isDigit then mkHM (dg a) (dg c) else none
  | [a, b, c, d] =>
      if a.isDigit && b = ':' && c.isDigit && d.isDigit then
        mkHM (dg a) (10 * dg c + dg d)
      else if a.isDigit && b.isDigit && c = ':' && d.isDigit then
        mkHM (10 * dg a + dg b) (dg d)
      else none
  | [a, b, c, d, e] =>
      if a.isDigit && b.isDigit && c = ':' && d.isDigit && e.isDigit then
        mkHM (10 * dg a + dg b) (10 * dg d + dg e)
      else none
  | _ => none

/-- Zero padding to two characters (`String(n).padStart(2, "0")`). -/
def pad2 (n : Nat) : String :=
  if n < 10 then "0" ++ toString n else toString n

/-- `minutesToHHMM` of `timeSlots.ts`: clamps into `[0, 1439]` and formats
as `HH:MM`.  (`Math.round` is the identity on the integers we pass in; the
`Number.isFinite` guard corresponds to callers handling `none` before
calling.) -/
def minutesToHHMM (m : Int) : String :=
  let clamped := max 0 (min (24 * 60 - 1) m)
  pad2 (clamped.toNat / 60) ++ ":" ++ pad2 (clamped.toNat % 60)

/-- `roundToSlot` of `timeSlots.ts`.  On an integer input `m` and a
positive integer `interval`, JavaScript's `Math.floor(m / interval)` is
`Int.fdiv m interval`, `Math.ceil(x) = -Math.floor(-x)`, and
`Math.round(x) = Math.floor(x + 1/2)`, i.e. `⌊(2m + i) / (2i)⌋`. -/
def roundToSlot (m interval : Int) (mode : SlotRoundingMode) : Int :=
  if interval ≤ 0 then m
  else
    (match mode with
      | .floor => Int.fdiv m interval
      | .ceil => -(Int.fdiv (-m) interval)
      | .nearest => Int.fdiv (2 * m + interval) (2 * interval)) * interval

/-! ### Local-date helpers (`engine.ts` and the availability service) -/

/-- A calendar date as the `getFullYear`/`getMonth`/`getDate` components of
a JavaScript `Date` (month here is 1-based). -/
structure DateYMD where
  y : Nat
  m : Nat
  d : Nat
deriving DecidableEq, Repr

def isLeapYear (y : Nat) : Bool :=
  y % 4 = 0 && (y % 100 ≠ 0 || y % 400 = 0)

def daysInMonth (y m : Nat) : Nat :=
  if m = 2 then (if isLeapYear y then 29 else 28)
  else if m = 4 ∨ m = 6 ∨ m = 9 ∨ m = 11 then 30
  else 31

/-- `date.setDate(date.getDate() + 1)`: step to the next calendar day. -/
def nextDay : DateYMD → DateYMD
  | ⟨y, m, d⟩ =>
    if d < daysInMonth y m then ⟨y, m, d + 1⟩
    else if m < 12 then ⟨y, m + 1, 1⟩
    else ⟨y + 1, 1, 1⟩

/-- `date.setDate(date.getDate() + n)`: adding `n` days equals stepping
`nextDay` `n` times. -/
def addDaysYMD (d : DateYMD) : Nat → DateYMD
  | 0 => d
  | n + 1 => nextDay (addDaysYMD d n)

def digitsToNat (l : List Char) : Nat :=
  l.foldl (fun acc c => 10 * acc + (c.toNat - 48)) 0

/-- Validity of year/month/day components as checked by the
`new Date(y, m - 1, d)` roundtrip in the source: the components must not
roll over.  A JavaScript `Date` maps constructor years `0..99` to
`1900..1999`, so the roundtrip additionally rejects every year below 100. -/
def isValidYMD (y m d : Nat) : Bool :=
  100 ≤ y && 1 ≤ m && m ≤ 12 && 1 ≤ d && d ≤ daysInMonth y m

/-- `isValidISODate` of `engine.ts`: the regex `^\d{4}-\d{2}-\d{2}$` plus
the `new Date` roundtrip check. -/
def isValidISODate (date : String) : Bool :=
  match date.toList with
  | [a, b, c, d, h1, e, f, h2, g, h] =>
      if a.isDigit && b.isDigit && c.isDigit && d.isDigit && h1 = '-' &&
         e.isDigit && f.isDigit && h2 = '-' && g.isDigit && h.isDigit then
        isValidYMD (digitsToNat [a, b, c, d]) (digitsToNat [e, f]) (digitsToNat [g, h])
      else false
  | _ => false

/-- `parseISODateLocal` of the availability service: same shape and
roundtrip check as `isValidISODate`, returning the components. -/
def parseISODateLocal (date : String) : Option DateYMD :=
  match date.toList with
  | [a, b, c, d, h1, e, f, h2, g, h] =>
      if a.isDigit && b.isDigit && c.isDigit && d.isDigit && h1 = '-' &&
         e.isDigit && f.isDigit && h2 = '-' && g.isDigit && h.isDigit then
        let y := digitsToNat [a, b, c, d]
        let mo := digitsToNat [e, f]
        let dd := digitsToNat [g, h]
        if isValidYMD y mo dd then some ⟨y, mo, dd⟩ else none
      else none
  | _ => none

/-- `toISODateLocal` of the availability service (and, with the same body,
`toLocalISODate` of `engine.ts`): format as `YYYY-MM-DD` with the month
and day zero-padded. -/
def toISODateLocal (d : DateYMD) : String :=
  toString d.y ++ "-" ++ pad2 d.m ++ "-" ++ pad2 d.d

def toLocalISODate : DateYMD → String := toISODateLocal

/-- Lower-casing plus `normalize("NFD").replace(/[̀-ͯ]/g, "")`
for the characters that can actually occur in the relative-date tokens of
`normalizeDateInput` (ASCII letters and Spanish accented vowels / ñ). -/
def foldChar (c : Char) : Char :=
  if 'A' ≤ c ∧ c ≤ 'Z' then Char.ofNat (c.toNat + 32)
  else if c = 'á' ∨ c = 'Á' then 'a'
  else if c = 'é' ∨ c = 'É' then 'e'
  else if c = 'í' ∨ c = 'Í' then 'i'
  else if c = 'ó' ∨ c = 'Ó' then 'o'
  else if c = 'ú' ∨ c = 'Ú' ∨ c = 'ü' ∨ c = 'Ü' then 'u'
  else if c = 'ñ' ∨ c = 'Ñ' then 'n'
  else c

/-- The `^(\d{1,2})[\/\-](\d{1,2})(?:[\/\-](\d{2,4}))?$` match of
`normalizeDateInput`, yielding (day, month, optional year group). -/
def parseDMY (l : List Char) : Option (Nat × Nat × Option Nat) :=
  let isSep : Char → Bool := fun c => c = '/' || c = '-'
  let d1 := l.takeWhile Char.isDigit
  let r1 := l.dropWhile Char.isDigit
  if d1.length < 1 ∨ 2 < d1.length then none
  else
    match r1 with
    | [] => none
    | sep :: r2 =>
      if !isSep sep then none
      else
        let d2 := r2.takeWhile Char.isDigit
        let r3 := r2.dropWhile Char.isDigit
        if d2.length < 1 ∨ 2 < d2.length then none
        else
          match r3 with
          | [] => some (digitsToNat d1, digitsToNat d2, none)
          | sep2 :: r4 =>
            if !isSep sep2 then none
            else
              let d3 := r4.takeWhile Char.isDigit
              let r5 := r4.dropWhile Char.isDigit
              if d3.length < 2 ∨ 4 < d3.length ∨ r5 ≠ [] then none
              else some (digitsToNat d1, digitsToNat d2, some (digitsToNat d3))

/-- `normalizeDateInput` of `engine.ts`.  `now` is the caller-supplied
reference instant (`ctx.now`), of which only the local date components are
used. -/
def normalizeDateInput (value : String) (now : DateYMD) : Option String :=
  let rawL := jsTrim value
  let raw := String.mk rawL
  if raw = "" then none
  else if isValidISODate raw then some raw
  else
    let normalized := String.mk (rawL.map foldChar)
    if normalized = "hoy" ∨ normalized = "today" then some (toLocalISODate now)
    else if normalized = "manana" ∨ normalized = "tomorrow" then
      some (toLocalISODate (nextDay now))
    else if normalized = "pasado manana" ∨ normalized = "day after tomorrow" then
      some (toLocalISODate (nextDay (nextDay now)))
    else
      match parseDMY rawL with
      | none => none
      | some (day, month, yearGroup) =>
        let year := match yearGroup with
          | none => now.y
          | some yr => if yr < 100 then yr + 2000 else yr
        let candidate := toString year ++ "-" ++ pad2 month ++ "-" ++ pad2 day
        if isValidISODate candidate then some candidate else none

/-! ### Data model (`src/services/reservations/types.ts`, `src/types.ts`) -/

inductive ReservationStatus where
  | active
  | cancelled
deriving DecidableEq, Repr

/-- A reservation record.  `table_id` is not declared in the TypeScript
interface but is written by the engine's create/update paths and read by
the table-assignment module; `none` models an `undefined` field. -/
structure Reservation where
  id : String
  restaurant_id : String
  name : String
  phone : String
  date : String
  time : String
  partySize : Int
  notes : Option String
  table_id : Option String
  status : ReservationStatus
  createdAt : Int
deriving DecidableEq, Repr

inductive TableKind where
  | table
  | stool
deriving DecidableEq, Repr

inductive TableStatus where
  | free
  | occupied
  | reserved
  | blocked
deriving DecidableEq, Repr

/-- The fields of `RestaurantTable` that the reservation modules read
(`kind` is optional in the source, defaulting to `"table"`). -/
structure RestaurantTable where
  id : String
  restaurant_id : String
  name : String
  capacity : Int
  zone : Option String
  kind : Option TableKind
  status : TableStatus
deriving DecidableEq, Repr

structure ShiftRange where
  start : String
  «end» : String
deriving DecidableEq, Repr

structure CapacityConfig where
  totalCapacity : Int
  maxPartySize : Int
  standardDurationMin : Int
  bufferMin : Int
  slotIntervalMin : Int
  slotRounding : SlotRoundingMode
  openingHours : List ShiftRange
  closedDates : List String
deriving DecidableEq, Repr

/-- `RESERVATION_CONFIG` of `config.ts`, the hard-coded defaults. -/
def RESERVATION_CONFIG : CapacityConfig where
  totalCapacity := 30
  maxPartySize := 8
  standardDurationMin := 90
  bufferMin := 10
  slotIntervalMin := 30
  slotRounding := .ceil
  openingHours := [⟨"13:00", "16:00"⟩, ⟨"20:00", "23:30"⟩]
  closedDates := ["2026-01-01", "2026-12-25", "2026-03-19"]

/-- The post-conditions that `getReservationSettings` enforces on every
config it returns (its "basic sanitization" block). -/
def SanitizedConfig (cfg : CapacityConfig) : Prop :=
  0 ≤ cfg.totalCapacity ∧ 1 ≤ cfg.maxPartySize ∧ 1 ≤ cfg.standardDurationMin ∧
    0 ≤ cfg.bufferMin ∧ 1 ≤ cfg.slotIntervalMin

instance : DecidablePred SanitizedConfig := fun cfg => by
  unfold SanitizedConfig; infer_instance

/-! ### Reservation repository (`repository.ts`), as a pure store

`localStorage` becomes an explicit `List Reservation` threaded through;
`generateId()` / `Date.now()` become caller-supplied values. -/

/-- `excludeReservationId && r.id === excludeReservationId`: the exclusion
only fires when the id is truthy (a non-empty string). -/
def excludedMatch (ex : Option String) (id : String) : Bool :=
  match ex with
  | some e => e ≠ "" && id == e
  | none => false

def ReservationRepository.getById (store : List Reservation) (rid id : String) :
    Option Reservation :=
  store.find? (fun r => r.restaurant_id == rid && r.id == id)

/-- `listByDate` (aliased as `getByDate`): active reservations of the
tenant on the date. -/
def ReservationRepository.getByDate (store : List Reservation) (rid date : String) :
    List Reservation :=
  store.filter (fun r => r.restaurant_id == rid && r.date == date && r.status == .active)

/-- The `data` argument of `ReservationRepository.create` as built by the
engine's create path. -/
structure NewReservationData where
  date : String
  time : String
  partySize : Int
  name : String
  phone : String
  table_id : Option String
  notes : Option String
deriving DecidableEq, Repr

def ReservationRepository.create (store : List Reservation) (rid : String)
    (data : NewReservationData) (freshId : String) (nowMs : Int) :
    Reservation × List Reservation :=
  let newRes : Reservation :=
    { id := freshId, restaurant_id := rid, name := data.name, phone := data.phone,
      date := data.date, time := data.time, partySize := data.partySize,
      notes := data.notes, table_id := data.table_id, status := .active,
      createdAt := nowMs }
  (newRes, store ++ [newRes])

/-- The `updates` object of the engine's update path.  All five keys are
present in the object literal, so the spread `{ ...db[idx], ...updates }`
overwrites all five stored fields — `table_id`/`notes` even when their
value is `undefined`. -/
structure UpdatePatch where
  date : String
  time : String
  partySize : Int
  table_id : Option String
  notes : Option String
deriving DecidableEq, Repr

def applyPatch (r : Reservation) (p : UpdatePatch) : Reservation :=
  { r with date := p.date, time := p.time, partySize := p.partySize,
           table_id := p.table_id, notes := p.notes }

/-- `db.findIndex` followed by an in-place replacement of the first match:
returns the replaced record (if any) and the new store. -/
def ReservationRepository.updateGo (p : Reservation → Bool) (f : Reservation → Reservation) :
    List Reservation → Option Reservation × List Reservation
  | [] => (none, [])
  | r :: rest =>
    if p r then (some (f r), f r :: rest)
    else
      let res := ReservationRepository.updateGo p f rest
      (res.1, r :: res.2)

def ReservationRepository.update (store : List Reservation) (rid id : String)
    (patch : UpdatePatch) : Option Reservation × List Reservation :=
  ReservationRepository.updateGo (fun r => r.restaurant_id == rid && r.id == id)
    (fun r => applyPatch r patch) store

def ReservationRepository.cancel (store : List Reservation) (rid id : String) :
    Bool × List Reservation :=
  let res := ReservationRepository.updateGo (fun r => r.restaurant_id == rid && r.id == id)
    (fun r => { r with status := .cancelled }) store
  (res.1.isSome, res.2)

/-! ### Availability service -/

inductive AvailStatus where
  | available
  | not_available
deriving DecidableEq, Repr

inductive AvailabilityReason where
  | capacity
  | max_party
  | out_of_hours
  | turn_end
  | closed
deriving DecidableEq, Repr

structure DateTimeAlt where
  date : String
  time : String
deriving DecidableEq, Repr

structure AvailabilityResult where
  status : AvailStatus
  reason : Option AvailabilityReason := none
  alternatives : List DateTimeAlt
  normalized_time : Option String := none
deriving DecidableEq, Repr

/-- `getShift`: the first configured shift whose half-open window
`[start, end)` contains the time.  A shift bound that fails to parse gives
`NaN`, whose comparisons are all false. -/
def getShift (cfg : CapacityConfig) (timeMin : Int) : Option ShiftRange :=
  cfg.openingHours.find? (fun range =>
    match parseTimeToMinutes range.start, parseTimeToMinutes range.«end» with
    | some s, some e => decide (s ≤ timeMin ∧ timeMin < e)
    | _, _ => false)

/-- The accumulation loop of `checkCapacity`: sum the party sizes of the
(non-excluded) reservations whose window overlaps the request window.  A
reservation whose stored time fails to parse contributes nothing (its
`NaN` window fails both comparisons). -/
def reservationLoad (cfg : CapacityConfig) (reqStart reqEnd : Int)
    (excludeReservationId : Option String) : List Reservation → Int
  | [] => 0
  | r :: rest =>
    let acc := reservationLoad cfg reqStart reqEnd excludeReservationId rest
    if excludedMatch excludeReservationId r.id then acc
    else
      match parseTimeToMinutes r.time with
      | none => acc
      | some rStart =>
        if reqStart < rStart + cfg.standardDurationMin + cfg.bufferMin ∧ reqEnd > rStart then
          r.partySize + acc
        else acc

/-- `checkCapacity`: true when the remaining capacity over the request
window still fits the party. -/
def checkCapacity (cfg : CapacityConfig) (store : List Reservation) (rid date : String)
    (reqStart duration partySize : Int) (excludeReservationId : Option String) : Bool :=
  decide (partySize ≤ cfg.totalCapacity -
    reservationLoad cfg reqStart (reqStart + duration + cfg.bufferMin) excludeReservationId
      (ReservationRepository.getByDate store rid date))

/-- Number of iterations of `for (let t = start; t <= latest; t += interval)`.
The JavaScript loop does not terminate for `interval ≤ 0` (sanitized
configs guarantee `interval ≥ 1`); we return zero iterations there. -/
def slotCount (start latest interval : Int) : Nat :=
  if interval ≤ 0 ∨ latest < start then 0
  else (latest - start).toNat / interval.toNat + 1

/-- The values visited by `for (let t = start; t <= latest; t += interval)`,
in visiting order. -/
def slotsFromTo (start latest interval : Int) : List Int :=
  (List.range (slotCount start latest interval)).map
    (fun (i : Nat) => start + (i : Int) * interval)

/-- Ordering used by the alternative searches: ascending absolute distance
from the requested time, ties broken in favour of the earlier time.  Both
JavaScript comparators (`(a < req) ? -1 : 1` in `findSmartAlternatives`,
`a - b` in `suggestAlternativeTimesByTables`) realize this order on the
duplicate-free candidate lists they are applied to, so a stable sort with
either of them returns the unique `altLe`-sorted permutation. -/
def altLe (req a b : Int) : Prop :=
  |a - req| < |b - req| ∨ (|a - req| = |b - req| ∧ a ≤ b)

instance (req : Int) : DecidableRel (altLe req) := fun a b => by
  unfold altLe; infer_instance

instance (req : Int) : IsTotal Int (altLe req) :=
  ⟨fun a b => by unfold altLe; omega⟩

instance (req : Int) : IsTrans Int (altLe req) :=
  ⟨fun a b c hab hbc => by unfold altLe at *; omega⟩

/-- `findSmartAlternatives`: slots of the given shift (excluding the
requested time) that pass the capacity rule, sorted by `altLe`, first two.
If either shift bound fails to parse, the candidate loop runs zero times. -/
def findSmartAlternatives (cfg : CapacityConfig) (store : List Reservation)
    (rid date : String) (reqTimeMin partySize : Int) (shift : ShiftRange)
    (excludeReservationId : Option String) : List DateTimeAlt :=
  match parseTimeToMinutes shift.start, parseTimeToMinutes shift.«end» with
  | some shiftStartMin, some shiftEndMin =>
    let candidates :=
      (slotsFromTo shiftStartMin (shiftEndMin - cfg.standardDurationMin)
        cfg.slotIntervalMin).filter (fun t => t ≠ reqTimeMin)
    let validCandidates := candidates.filter (fun t =>
      checkCapacity cfg store rid date t cfg.standardDurationMin partySize
        excludeReservationId)
    ((validCandidates.insertionSort (altLe reqTimeMin)).take 2).map
      (fun m => ⟨date, minutesToHHMM m⟩)
  | _, _ => []

/-- Day-stepping loop of `findNextDayAlternatives` (the source mutates one
`Date` forward one day per iteration). -/
def findNextDayGo (cfg : CapacityConfig) (store : List Reservation) (rid : String)
    (timeMin? : Option Int) (partySize : Int) (excludeReservationId : Option String) :
    Nat → DateYMD → List DateTimeAlt → List DateTimeAlt
  | 0, _, acc => acc
  | fuel + 1, cur, acc =>
    if acc.length ≥ 2 then acc
    else if toISODateLocal (nextDay cur) ∈ cfg.closedDates then
      findNextDayGo cfg store rid timeMin? partySize excludeReservationId fuel
        (nextDay cur) acc
    else
      match timeMin? with
      | none =>
        -- `getShift(cfg, NaN)` matches no shift, so the day is skipped.
        findNextDayGo cfg store rid timeMin? partySize excludeReservationId fuel
          (nextDay cur) acc
      | some tm =>
        if (getShift cfg tm).isSome then
          if checkCapacity cfg store rid (toISODateLocal (nextDay cur)) tm
              cfg.standardDurationMin partySize excludeReservationId then
            findNextDayGo cfg store rid timeMin? partySize excludeReservationId fuel
              (nextDay cur) (acc ++ [⟨toISODateLocal (nextDay cur), minutesToHHMM tm⟩])
          else
            findNextDayGo cfg store rid timeMin? partySize excludeReservationId fuel
              (nextDay cur) acc
        else
          findNextDayGo cfg store rid timeMin? partySize excludeReservationId fuel
            (nextDay cur) acc

/-- `findNextDayAlternatives`: up to 2 of the next 7 non-closed days where
the same time still fits. -/
def findNextDayAlternatives (cfg : CapacityConfig) (store : List Reservation)
    (rid startDate : String) (timeMin? : Option Int) (partySize : Int)
    (excludeReservationId : Option String) : List DateTimeAlt :=
  match parseISODateLocal startDate with
  | none => []
  | some d0 => findNextDayGo cfg store rid timeMin? partySize excludeReservationId 7 d0 []

/-- `getAvailableSlotsOnDate`: capacity-passing slots across all shifts
(`Math.max(shiftStart, minStartMin ?? shiftStart)` as the first candidate),
sorted ascending.  A shift with an unparsable bound contributes nothing
(`NaN` bounds stop the loop immediately). -/
def getAvailableSlotsOnDate (cfg : CapacityConfig) (store : List Reservation)
    (rid date : String) (partySize : Int) (minStartMin? : Option Int)
    (excludeReservationId : Option String) : List Int :=
  let slots := (cfg.openingHours.map (fun shift =>
    match parseTimeToMinutes shift.start, parseTimeToMinutes shift.«end» with
    | some shiftStart, some shiftEnd =>
      (slotsFromTo (max shiftStart (minStartMin?.getD shiftStart))
        (shiftEnd - cfg.standardDurationMin) cfg.slotIntervalMin).filter (fun t =>
          checkCapacity cfg store rid date t cfg.standardDurationMin partySize
            excludeReservationId)
    | _, _ => [])).flatten
  slots.insertionSort (· ≤ ·)

/-- Day-stepping loop of `findOutOfHoursAlternatives` over the 7 following
days (the source recomputes `base + i` days each iteration, which equals
stepping one day at a time). -/
def oohGo (cfg : CapacityConfig) (store : List Reservation) (rid : String)
    (partySize : Int) (excludeReservationId : Option String) :
    Nat → DateYMD → List DateTimeAlt → List DateTimeAlt
  | 0, _, alts => alts
  | fuel + 1, cur, alts =>
    if alts.length ≥ 2 then alts
    else if toISODateLocal (nextDay cur) ∈ cfg.closedDates then
      oohGo cfg store rid partySize excludeReservationId fuel (nextDay cur) alts
    else
      oohGo cfg store rid partySize excludeReservationId fuel (nextDay cur)
        (alts ++ (((getAvailableSlotsOnDate cfg store rid (toISODateLocal (nextDay cur))
          partySize none excludeReservationId).map
            (fun t => (⟨toISODateLocal (nextDay cur), minutesToHHMM t⟩ : DateTimeAlt))).take
          (2 - alts.length)))

/-- `findOutOfHoursAlternatives`: same-day slots at or after the requested
time first, then slots of the 7 following non-closed days, capped at 2. -/
def findOutOfHoursAlternatives (cfg : CapacityConfig) (store : List Reservation)
    (rid date : String) (requestedMin? : Option Int) (partySize : Int)
    (excludeReservationId : Option String) : List DateTimeAlt :=
  match parseISODateLocal date with
  | none => []
  | some baseDate =>
    let sameDaySlots := getAvailableSlotsOnDate cfg store rid date partySize
      requestedMin? excludeReservationId
    let alts := ((sameDaySlots.map (fun t => (⟨date, minutesToHHMM t⟩ : DateTimeAlt))).take 2)
    oohGo cfg store rid partySize excludeReservationId 7 baseDate alts

/-- The `normalized_time` computed at the top of `AvailabilityService.check`
(and surfaced in each of its results): the slot-rounded `HH:MM`, present
only when it differs from the raw parse's `HH:MM`. -/
def normalizedTimeOf (cfg : CapacityConfig) (time : String) : Option String :=
  match parseTimeToMinutes time with
  | none => none
  | some r =>
    if minutesToHHMM r ≠ minutesToHHMM (roundToSlot r cfg.slotIntervalMin cfg.slotRounding)
    then some (minutesToHHMM (roundToSlot r cfg.slotIntervalMin cfg.slotRounding))
    else none

/-- The slot-rounded request minutes (`timeMin` in the source), `none` for
an unparsable time (`NaN`). -/
def roundedMinOf (cfg : CapacityConfig) (time : String) : Option Int :=
  (parseTimeToMinutes time).map (fun m => roundToSlot m cfg.slotIntervalMin cfg.slotRounding)

/-- `AvailabilityService.check`: the ordered validation pipeline
(closed date, max party, out of hours, turn end, capacity). -/
def AvailabilityService.check (cfg : CapacityConfig) (store : List Reservation)
    (restaurantId date time : String) (partySize : Int)
    (excludeReservationId : Option String := none) : AvailabilityResult :=
  if date ∈ cfg.closedDates then
    { status := .not_available, reason := some .closed,
      alternatives := findNextDayAlternatives cfg store restaurantId date
        (roundedMinOf cfg time) partySize excludeReservationId,
      normalized_time := normalizedTimeOf cfg time }
  else if partySize > cfg.maxPartySize then
    { status := .not_available, reason := some .max_party, alternatives := [],
      normalized_time := normalizedTimeOf cfg time }
  else
    match (roundedMinOf cfg time).bind
        (fun tm => (getShift cfg tm).map (fun sh => (tm, sh))) with
    | none =>
      { status := .not_available, reason := some .out_of_hours,
        alternatives := findOutOfHoursAlternatives cfg store restaurantId date
          (roundedMinOf cfg time) partySize excludeReservationId,
        normalized_time := normalizedTimeOf cfg time }
    | some (timeMin, activeShift) =>
      if (match parseTimeToMinutes activeShift.«end» with
          | some shiftEndMin => decide (timeMin + cfg.standardDurationMin > shiftEndMin)
          | none => false) then
        { status := .not_available, reason := some .turn_end,
          alternatives := findSmartAlternatives cfg store restaurantId date timeMin
            partySize activeShift excludeReservationId,
          normalized_time := normalizedTimeOf cfg time }
      else if checkCapacity cfg store restaurantId date timeMin cfg.standardDurationMin
          partySize excludeReservationId then
        { status := .available, alternatives := [], normalized_time := normalizedTimeOf cfg time }
      else
        { status := .not_available, reason := some .capacity,
          alternatives := findSmartAlternatives cfg store restaurantId date timeMin
            partySize activeShift excludeReservationId,
          normalized_time := normalizedTimeOf cfg time }

/-! ### Table assignment (`tableAssignment.ts`) -/

def isOverlapping (a b : Int × Int) : Bool :=
  decide (a.1 < b.2 ∧ a.2 > b.1)

def toWindow (timeHHMM : String) (durationMin bufferMin : Int) : Option (Int × Int) :=
  (parseTimeToMinutes timeHHMM).map (fun s => (s, s + durationMin + bufferMin))

/-- `t.kind === "stool" ? 1 : t.capacity`. -/
def effectiveCapacity (t : RestaurantTable) : Int :=
  if t.kind = some .stool then 1 else t.capacity

/-- Sort order of `listAvailableTablesForReservation`: ascending effective
capacity, then name (`localeCompare` modelled as code-point order; the
order plays no role in the claims below). -/
def tableLE (a b : RestaurantTable) : Prop :=
  effectiveCapacity a < effectiveCapacity b ∨
    (effectiveCapacity a = effectiveCapacity b ∧ a.name ≤ b.name)

instance : DecidableRel tableLE := fun a b => by
  unfold tableLE; infer_instance

instance : IsTotal RestaurantTable tableLE :=
  ⟨fun a b => by
    unfold tableLE
    rcases lt_trichotomy (effectiveCapacity a) (effectiveCapacity b) with h | h | h
    · exact Or.inl (Or.inl h)
    · rcases le_total a.name b.name with h' | h'
      · exact Or.inl (Or.inr ⟨h, h'⟩)
      · exact Or.inr (Or.inr ⟨h.symm, h'⟩)
    · exact Or.inr (Or.inl h)⟩

instance : IsTrans RestaurantTable tableLE :=
  ⟨fun a b c hab hbc => by
    unfold tableLE at *
    rcases hab with h | ⟨h1, h2⟩ <;> rcases hbc with h' | ⟨h3, h4⟩
    · exact Or.inl (h.trans h')
    · exact Or.inl (h3 ▸ h)
    · exact Or.inl (h1 ▸ h')
    · exact Or.inr ⟨h1.trans h3, h2.trans h4⟩⟩

/-- The per-table conflict filter of `listAvailableTablesForReservation`:
a table is kept unless some relevant reservation is assigned to it (a
truthy `table_id` equal to the table's id), is not the excluded one, and
has a parsable window overlapping the target window. -/
def tableFree (cfg : CapacityConfig) (target : Int × Int) (relevant : List Reservation)
    (excludeReservationId : Option String) (t : RestaurantTable) : Bool :=
  relevant.all (fun r =>
    if excludedMatch excludeReservationId r.id then true
    else
      match r.table_id with
      | none => true
      | some tid =>
        if tid = "" then true
        else if tid ≠ t.id then true
        else
          match toWindow r.time cfg.standardDurationMin cfg.bufferMin with
          | none => true
          | some w => !isOverlapping target w)

def listAvailableTablesForReservation (cfg : CapacityConfig) (rid date time : String)
    (partySize : Int) (tables : List RestaurantTable) (reservations : List Reservation)
    (excludeReservationId : Option String := none) : List RestaurantTable :=
  match parseTimeToMinutes time with
  | none => []
  | some rawMin =>
    -- target window of the slot-rounded request (`normalizedTime` re-parsed)
    match toWindow (minutesToHHMM (roundToSlot rawMin cfg.slotIntervalMin cfg.slotRounding))
        cfg.standardDurationMin cfg.bufferMin with
    | none => []
    | some target =>
      ((((tables.filter (fun t => t.restaurant_id == rid)).filter
        (fun t => t.status ≠ .blocked)).filter
        (fun t => decide (partySize ≤ effectiveCapacity t))).filter
        (tableFree cfg target
          (reservations.filter (fun r =>
            r.restaurant_id == rid && r.date == date && r.status == .active))
          excludeReservationId)).insertionSort tableLE

def pickTableForReservation (cfg : CapacityConfig) (rid date time : String)
    (partySize : Int) (tables : List RestaurantTable) (reservations : List Reservation)
    (excludeReservationId : Option String := none) : Option RestaurantTable :=
  (listAvailableTablesForReservation cfg rid date time partySize tables reservations
    excludeReservationId).head?

/-- Candidate loop of `suggestAlternativeTimesByTables`: keep candidates
for which some table is assignable, until `limit` entries are collected. -/
def suggestGo (cfg : CapacityConfig) (rid date : String) (partySize : Int)
    (tables : List RestaurantTable) (reservations : List Reservation) (limit : Nat) :
    List Int → List DateTimeAlt → List DateTimeAlt
  | [], out => out
  | t :: rest, out =>
    if out.length ≥ limit then out
    else if (pickTableForReservation cfg rid date (minutesToHHMM t) partySize tables
        reservations).isSome then
      suggestGo cfg rid date partySize tables reservations limit rest
        (out ++ [⟨date, minutesToHHMM t⟩])
    else
      suggestGo cfg rid date partySize tables reservations limit rest out

/-- `suggestAlternativeTimesByTables`: the smart search of the availability
service, but validating candidates by table assignability.  Its inline
shift lookup has exactly the semantics of `getShift`. -/
def suggestAlternativeTimesByTables (cfg : CapacityConfig) (rid date time : String)
    (partySize : Int) (tables : List RestaurantTable) (reservations : List Reservation)
    (limit : Nat := 2) : List DateTimeAlt :=
  match parseTimeToMinutes time with
  | none => []
  | some rawMin =>
    match (getShift cfg (roundToSlot rawMin cfg.slotIntervalMin cfg.slotRounding)).orElse
        (fun _ => cfg.openingHours.head?) with
    | none => []
    | some activeShift =>
      match parseTimeToMinutes activeShift.start, parseTimeToMinutes activeShift.«end» with
      | some shiftStart, some shiftEnd =>
        suggestGo cfg rid date partySize tables reservations limit
          (((slotsFromTo shiftStart (shiftEnd - cfg.standardDurationMin)
              cfg.slotIntervalMin).filter
            (fun t => t ≠ roundToSlot rawMin cfg.slotIntervalMin cfg.slotRounding)).insertionSort
            (altLe (roundToSlot rawMin cfg.slotIntervalMin cfg.slotRounding))) []
      | _, _ => []

/-! ### Reservation engine (`engine.ts`) -/

/-- `ReservationEngineContext` plus the two ambient clock reads the engine
performs (`ctx.now ?? new Date()` for date normalization, `Date.now()` for
`createdAt`), made explicit. -/
structure EngineCtx where
  restaurant_id : String
  phone : String
  now : DateYMD
  nowMs : Int
deriving Repr

/-- Payload of `create_reservation` (fields absent from the LLM-produced
payload are `none`). -/
structure CreatePayload where
  date : Option String
  time : Option String
  party_size : Option Int
  name : Option String
  notes : Option String
  phone : Option String
  table_id : Option String
deriving DecidableEq, Repr

/-- The `changes` object of `update_reservation`. -/
structure UpdateChanges where
  date : Option String
  time : Option String
  party_size : Option Int
  table_id : Option String
  notes : Option String
deriving DecidableEq, Repr

inductive BackendAction where
  | check_availability (date time : Option String) (party_size : Option Int)
  | create_reservation (payload : CreatePayload)
  | update_reservation (reservation_id : Option String) (changes : UpdateChanges)
  | cancel_reservation (reservation_id : Option String)
  | none_
deriving DecidableEq, Repr

/-- JavaScript truthiness of an optional string (`undefined`/`""` falsy). -/
def strTruthy : Option String → Bool
  | none => false
  | some s => s ≠ ""

/-- JavaScript truthiness of an optional number (`undefined`/`0` falsy). -/
def intTruthy : Option Int → Bool
  | none => false
  | some n => n ≠ 0

inductive EngineAvailability where
  | available
  | not_available
  | unknown
deriving DecidableEq, Repr

/-- `EngineResponse`; a `none` field models an absent/`undefined` key. -/
structure EngineResponse where
  success : Bool
  data : Option Reservation := none
  availability : Option EngineAvailability := none
  reason : Option AvailabilityReason := none
  alternatives : Option (List DateTimeAlt) := none
  normalized_time : Option String := none
  message : Option String := none
deriving DecidableEq, Repr

/-- `changes.date ? normalizeDateInput(changes.date, now) : currentRes.date`. -/
def effNewDate (changes : UpdateChanges) (currentRes : Reservation) (now : DateYMD) :
    Option String :=
  if strTruthy changes.date then normalizeDateInput (changes.date.getD "") now
  else some currentRes.date

/-- `changes.time || currentRes.time`. -/
def effNewTime (changes : UpdateChanges) (currentRes : Reservation) : String :=
  if strTruthy changes.time then changes.time.getD "" else currentRes.time

/-- `changes.party_size || currentRes.partySize`. -/
def effNewSize (changes : UpdateChanges) (currentRes : Reservation) : Int :=
  if intTruthy changes.party_size then changes.party_size.getD 0 else currentRes.partySize

/-- The `needsCheck` flag of the update path: date, time or party size
actually differ from the stored values. -/
def needsCheck (newDate newTime : String) (newSize : Int) (currentRes : Reservation) : Bool :=
  newDate ≠ currentRes.date || newTime ≠ currentRes.time || newSize ≠ currentRes.partySize

/-- `ReservationEngine.execute`.  The reservation store is threaded
explicitly and returned next to the response; `settings` stands for
`getReservationSettings`, `freshId` for the generated id of a create. -/
def ReservationEngine.execute (settings : String → CapacityConfig) (action : BackendAction)
    (ctx : EngineCtx) (freshId : String) (store : List Reservation) :
    EngineResponse × List Reservation :=
  let restaurantId := ctx.restaurant_id
  let userPhone := ctx.phone
  let now := ctx.now
  match action with
  | .check_availability date? time? party? =>
    if !strTruthy date? || !strTruthy time? || !intTruthy party? then
      ({ success := false, availability := some .unknown }, store)
    else
      match normalizeDateInput (date?.getD "") now with
      | none =>
        ({ success := false, availability := some .unknown,
           message := some "Invalid date format." }, store)
      | some normalizedDate =>
        let result := AvailabilityService.check (settings restaurantId) store restaurantId
          normalizedDate (time?.getD "") (party?.getD 0) none
        ({ success := true,
           availability := some (if result.status = .available then .available
             else .not_available),
           reason := result.reason,
           alternatives := some result.alternatives,
           normalized_time := result.normalized_time }, store)
  | .create_reservation p =>
    if !strTruthy p.date || !strTruthy p.time || !intTruthy p.party_size || !strTruthy p.name then
      ({ success := false, availability := some .unknown,
         message := some "Missing required reservation fields." }, store)
    else
      match normalizeDateInput (p.date.getD "") now with
      | none =>
        ({ success := false, availability := some .unknown,
           message := some "Invalid date format." }, store)
      | some normalizedDate =>
        let finalPhone := if strTruthy p.phone then p.phone.getD "" else userPhone
        let cfg := settings restaurantId
        match parseTimeToMinutes (p.time.getD "") with
        | none =>
          ({ success := false, availability := some .unknown,
             message := some "Invalid time format." }, store)
        | some rawMin =>
          -- `Number.isFinite(roundedMin)` cannot fail on an integer input.
          let roundedMin := roundToSlot rawMin cfg.slotIntervalMin cfg.slotRounding
          let normalizedTime := minutesToHHMM roundedMin
          let chk := AvailabilityService.check cfg store restaurantId normalizedDate
            normalizedTime (p.party_size.getD 0) none
          if chk.status ≠ .available then
            ({ success := false, availability := some .not_available, reason := chk.reason,
               alternatives := some chk.alternatives, normalized_time := chk.normalized_time,
               message := some "Availability changed during booking." }, store)
          else
            let created := ReservationRepository.create store restaurantId
              { date := normalizedDate, time := normalizedTime,
                partySize := p.party_size.getD 0, name := p.name.getD "",
                phone := finalPhone, table_id := p.table_id, notes := p.notes }
              freshId ctx.nowMs
            ({ success := true, data := some created.1, availability := some .available,
               normalized_time := chk.normalized_time }, created.2)
  | .update_reservation rid? changes =>
    if !strTruthy rid? then
      ({ success := false, message := some "Reservation id missing" }, store)
    else
      let reservation_id := rid?.getD ""
      match ReservationRepository.getById store restaurantId reservation_id with
      | none => ({ success := false, message := some "Reservation not found" }, store)
      | some currentRes =>
        match effNewDate changes currentRes now with
        | none => ({ success := false, message := some "Invalid date format" }, store)
        | some newDate =>
          if newDate = "" then
            -- `!normalizedChangeDate` is also true when the (stored) date is "".
            ({ success := false, message := some "Invalid date format" }, store)
          else
            let newTime := effNewTime changes currentRes
            let newSize := effNewSize changes currentRes
            let cfg := settings restaurantId
            match parseTimeToMinutes newTime with
            | none => ({ success := false, message := some "Invalid time format" }, store)
            | some rawMin =>
              let roundedMin := roundToSlot rawMin cfg.slotIntervalMin cfg.slotRounding
              let normalizedTime := minutesToHHMM roundedMin
              let proceed := fun (_ : Unit) =>
                let updated := ReservationRepository.update store restaurantId reservation_id
                  { date := newDate, time := normalizedTime, partySize := newSize,
                    table_id := changes.table_id, notes := changes.notes }
                (({ success := true, data := updated.1 } : EngineResponse), updated.2)
              if needsCheck newDate newTime newSize currentRes then
                let chk := AvailabilityService.check cfg store restaurantId newDate
                  normalizedTime newSize (some reservation_id)
                if chk.status ≠ .available then
                  ({ success := false, availability := some .not_available,
                     reason := chk.reason, alternatives := some chk.alternatives,
                     normalized_time := chk.normalized_time }, store)
                else proceed ()
              else proceed ()
  | .cancel_reservation rid? =>
    match rid? with
    | none =>
      -- `cancel(restaurantId, undefined)`: `findIndex` never matches.
      ({ success := false }, store)
    | some reservation_id =>
      let result := ReservationRepository.cancel store restaurantId reservation_id
      ({ success := result.1 }, result.2)
  | .none_ => ({ success := true }, store)

/-- The stores reachable from the empty store by engine actions. -/
inductive Reachable (settings : String → CapacityConfig) : List Reservation → Prop where
  | empty : Reachable settings []
  | step (a : BackendAction) (ctx : EngineCtx) (freshId : String) {s : List Reservation} :
      Reachable settings s →
      Reachable settings (ReservationEngine.execute settings a ctx freshId s).2

/-! ### Claim-level predicates and concrete scenarios -/

/-- The window `[start, start + standardDurationMin + bufferMin)` of a
reservation, when its stored time parses. -/
def ReservationWindow (cfg : CapacityConfig) (r : Reservation) : Option (Int × Int) :=
  (parseTimeToMinutes r.time).map (fun s => (s, s + cfg.standardDurationMin + cfg.bufferMin))

def windowsOverlap (cfg : CapacityConfig) (r1 r2 : Reservation) : Bool :=
  match ReservationWindow cfg r1, ReservationWindow cfg r2 with
  | some w1, some w2 => isOverlapping w1 w2
  | _, _ => false

/-- The invariant of claim C1: no two distinct active reservations of the
same tenant, on the same date, assigned to the same table, have
overlapping windows. -/
def TablesDisjoint (settings : String → CapacityConfig) (store : List Reservation) : Prop :=
  ∀ r1 ∈ store, ∀ r2 ∈ store, r1 ≠ r2 → r1.status = .active → r2.status = .active →
    r1.restaurant_id = r2.restaurant_id → r1.date = r2.date →
    r1.table_id ≠ none → r1.table_id = r2.table_id →
    windowsOverlap (settings r1.restaurant_id) r1 r2 = false

instance (settings : String → CapacityConfig) (store : List Reservation) :
    Decidable (TablesDisjoint settings store) := by
  unfold TablesDisjoint; infer_instance

/-- Actions whose payload carries no `table_id`. -/
def ActionNoTableId : BackendAction → Prop
  | .create_reservation p => p.table_id = none
  | .update_reservation _ changes => changes.table_id = none
  | _ => True

/-- No reservation of the store has an assigned table. -/
def NoAssignedTables (store : List Reservation) : Prop :=
  ∀ r ∈ store, r.table_id = none

/-- Stores reachable using only actions that never supply a `table_id`. -/
inductive ReachableNoTable (settings : String → CapacityConfig) : List Reservation → Prop where
  | empty : ReachableNoTable settings []
  | step (a : BackendAction) (ctx : EngineCtx) (freshId : String) {s : List Reservation} :
      ReachableNoTable settings s → ActionNoTableId a →
      ReachableNoTable settings (ReservationEngine.execute settings a ctx freshId s).2

/-- The default settings function: every tenant gets `RESERVATION_CONFIG`
(no stored overrides). -/
def stgsDefault : String → CapacityConfig := fun _ => RESERVATION_CONFIG

def c1Ctx : EngineCtx := ⟨"r1", "600111222", ⟨2026, 5, 1⟩, 0⟩

/-- Create a party of 2 on an open date at 13:00, asking for table `"T1"`. -/
def c1Create : BackendAction :=
  .create_reservation ⟨some "2026-05-20", some "13:00", some 2, some "Ana", none, none,
    some "T1"⟩

def c1Store1 : List Reservation :=
  (ReservationEngine.execute stgsDefault c1Create c1Ctx "id1" []).2

def c1Store2 : List Reservation :=
  (ReservationEngine.execute stgsDefault c1Create c1Ctx "id2" c1Store1).2

/-- Create with the slot-misaligned time `"20:45"` (rounded by the default
`ceil`/30-minute config to `"21:00"`). -/
def c3Result : EngineResponse × List Reservation :=
  ReservationEngine.execute stgsDefault
    (.create_reservation ⟨some "2026-05-20", some "20:45", some 2, some "Ana", none, none,
      none⟩)
    c1Ctx "id9" []

/-- (absolute distance from the requested time, minutes-of-day) of a
proposed alternative; an unparsable proposed time is treated as `(0, 0)`
(never produced by the searches). -/
def altDistTime (req : Int) (x : DateTimeAlt) : Int × Int :=
  match parseTimeToMinutes x.time with
  | some t => (|t - req|, t)
  | none => (0, 0)

/-- Claim C8's ordering on alternative lists: ascending absolute distance
of the proposed time from the requested time, the earlier time first on
equal distance. -/
def AltsOrderedBy (req : Int) (l : List DateTimeAlt) : Prop :=
  l.Pairwise (fun x y =>
    (altDistTime req x).1 < (altDistTime req y).1 ∨
      ((altDistTime req x).1 = (altDistTime req y).1 ∧
        (altDistTime req x).2 ≤ (altDistTime req y).2))

instance (req : Int) (l : List DateTimeAlt) : Decidable (AltsOrderedBy req l) := by
  unfold AltsOrderedBy; exact List.instDecidablePairwise l

/-- An availability check whose out-of-hours alternatives span to the next
day: requested `"23:45"` (after the dinner shift) on an open date with an
empty store. -/
def c8CheckResult : AvailabilityResult :=
  AvailabilityService.check RESERVATION_CONFIG [] "r1" "2026-05-20" "23:45" 2 none

/-- The slot-rounded request window that `listAvailableTablesForReservation`
checks tables against. -/
def requestTargetWindow (cfg : CapacityConfig) (time : String) : Option (Int × Int) :=
  (parseTimeToMinutes time).bind (fun rawMin =>
    toWindow (minutesToHHMM (roundToSlot rawMin cfg.slotIntervalMin cfg.slotRounding))
      cfg.standardDurationMin cfg.bufferMin)

/-- Contribution of one reservation to the load summed by `checkCapacity`. -/
def loadContribution (cfg : CapacityConfig) (reqStart reqEnd : Int)
    (excludeReservationId : Option String) (r : Reservation) : Int :=
  if excludedMatch excludeReservationId r.id then 0
  else
    match parseTimeToMinutes r.time with
    | none => 0
    | some rStart =>
      if reqStart < rStart + cfg.standardDurationMin + cfg.bufferMin ∧ reqEnd > rStart then
        r.partySize
      else 0

/-! ### Shared lemmas -/

theorem roundToSlot_of_mul (s i : Int) (hi : 0 < i) (mode : SlotRoundingMode) :
    roundToSlot (s * i) i mode = s * i := by
  unfold roundToSlot
  rw [if_neg (by omega)]
  congr 1
  cases mode
  · -- nearest
    show Int.fdiv (2 * (s * i) + i) (2 * i) = s
    rw [Int.fdiv_eq_ediv _ (by omega : (0 : Int) ≤ 2 * i)]
    rw [show 2 * (s * i) + i = i + s * (2 * i) by ring]
    rw [Int.add_mul_ediv_right _ _ (by omega : (2 : Int) * i ≠ 0)]
    rw [Int.ediv_eq_zero_of_lt (le_of_lt hi) (by omega : i < 2 * i)]
    simp
  · -- floor
    exact Int.mul_fdiv_cancel s (by omega)
  · -- ceil
    show -Int.fdiv (-(s * i)) i = s
    rw [show -(s * i) = -s * i by ring, Int.mul_fdiv_cancel _ (by omega : i ≠ 0)]
    simp

theorem roundToSlot_dvd (m i : Int) (mode : SlotRoundingMode) (h : i ∣ m) :
    roundToSlot m i mode = m := by
  by_cases hi : i ≤ 0
  · unfold roundToSlot; rw [if_pos hi]
  · obtain ⟨s, rfl⟩ := h
    rw [mul_comm]
    exact roundToSlot_of_mul s i (by omega) mode

theorem roundToSlot_idem (m i : Int) (mode : SlotRoundingMode) :
    roundToSlot (roundToSlot m i mode) i mode = roundToSlot m i mode := by
  by_cases hi : i ≤ 0
  · unfold roundToSlot
    rw [if_pos hi, if_pos hi]
  · have hs : ∃ s, roundToSlot m i mode = s * i := by
      unfold roundToSlot
      rw [if_neg hi]
      exact ⟨_, rfl⟩
    obtain ⟨s, hsq⟩ := hs
    rw [hsq]
    exact roundToSlot_of_mul s i (by omega) mode

theorem reservationLoad_eq_sum (cfg : CapacityConfig) (a b : Int) (ex : Option String) :
    ∀ l : List Reservation,
      reservationLoad cfg a b ex l = (l.map (loadContribution cfg a b ex)).sum := by
  intro l
  induction l with
  | nil => rfl
  | cons r rest ih =>
    simp only [reservationLoad, List.map_cons, List.sum_cons, loadContribution, ih]
    by_cases hex : excludedMatch ex r.id = true
    · rw [if_pos hex, if_pos hex]
      omega
    · rw [if_neg hex, if_neg hex]
      cases parseTimeToMinutes r.time with
      | none => simp only []; omega
      | some rStart =>
        simp only []
        by_cases hcond : a < rStart + cfg.standardDurationMin + cfg.bufferMin ∧ b > rStart
        · rw [if_pos hcond, if_pos hcond]
          try omega
        · rw [if_neg hcond, if_neg hcond]
          try omega

theorem reservationLoad_perm (cfg : CapacityConfig) (a b : Int) (ex : Option String)
    {l l' : List Reservation} (h : l.Perm l') :
    reservationLoad cfg a b ex l = reservationLoad cfg a b ex l' := by
  rw [reservationLoad_eq_sum, reservationLoad_eq_sum]
  exact (h.map _).sum_eq

/-! ### Claim theorems -/

/-- C10: `roundToSlot` is idempotent for every minutes value, interval and
rounding mode; it leaves interval-aligned values unchanged and passes any
value through unchanged when the interval is non-positive. -/
theorem roundToSlot_idempotent_spec (m i : Int) (mode : SlotRoundingMode) :
    roundToSlot (roundToSlot m i mode) i mode = roundToSlot m i mode ∧
    (i ∣ m → roundToSlot m i mode = m) ∧
    (i ≤ 0 → roundToSlot m i mode = m) := by
  refine ⟨roundToSlot_idem m i mode, fun h => roundToSlot_dvd m i mode h, fun h => ?_⟩
  unfold roundToSlot
  rw [if_pos h]

/-- Witness for C10 at concrete inputs. -/
theorem roundToSlot_idempotent_spec_witness :
    roundToSlot (roundToSlot 1245 30 .ceil) 30 .ceil = roundToSlot 1245 30 .ceil ∧
    roundToSlot 1230 30 .nearest = 1230 ∧
    roundToSlot 17 0 .floor = 17 :=
  ⟨(roundToSlot_idempotent_spec 1245 30 .ceil).1,
   (roundToSlot_idempotent_spec 1230 30 .nearest).2.1 (by decide),
   (roundToSlot_idempotent_spec 17 0 .floor).2.2 (by decide)⟩

/-- C7: on a closed date the availability check always answers
`not_available` with reason `closed`, regardless of party size, time
validity, shift containment or capacity. -/
theorem check_closed_short_circuits (cfg : CapacityConfig) (store : List Reservation)
    (rid date time : String) (partySize : Int) (ex : Option String)
    (h : date ∈ cfg.closedDates) :
    (AvailabilityService.check cfg store rid date time partySize ex).status =
      .not_available ∧
    (AvailabilityService.check cfg store rid date time partySize ex).reason =
      some .closed := by
  unfold AvailabilityService.check
  rw [if_pos h]
  exact ⟨rfl, rfl⟩

/-- Witness for C7: a closed date with an oversized party at an
out-of-hours time still reports `closed`. -/
theorem check_closed_short_circuits_witness :
    (AvailabilityService.check RESERVATION_CONFIG [] "r1" "2026-01-01" "03:00" 50
      none).status = .not_available ∧
    (AvailabilityService.check RESERVATION_CONFIG [] "r1" "2026-01-01" "03:00" 50
      none).reason = some .closed :=
  check_closed_short_circuits RESERVATION_CONFIG [] "r1" "2026-01-01" "03:00" 50 none
    (by decide)

/-- C1 (counterexample): the store obtained by twice creating a
table-`"T1"` reservation for 13:00 on the same open date is reachable, yet
holds two distinct active overlapping reservations of the same tenant
assigned to the same table — the engine checks aggregate capacity only,
never per-table overlap. -/
theorem reachable_table_overlap_counterexample :
    Reachable stgsDefault c1Store2 ∧ ¬ TablesDisjoint stgsDefault c1Store2 :=
  ⟨Reachable.step c1Create c1Ctx "id2" (Reachable.step c1Create c1Ctx "id1" Reachable.empty),
   by decide⟩

/-- C3 (divergence witness): creating with requested time `"20:45"` under
the default `ceil`/30-minute config succeeds and stores the slot-rounded
time `"21:00"`, but the response's `normalized_time` is absent — the
pre-write check receives the already-normalized time and so never reports
the rounding. -/
theorem create_normalized_time_dropped :
    parseTimeToMinutes "20:45" = some 1245 ∧
    minutesToHHMM (roundToSlot 1245 RESERVATION_CONFIG.slotIntervalMin
      RESERVATION_CONFIG.slotRounding) = "21:00" ∧
    c3Result.1.success = true ∧
    c3Result.1.data.map (fun r => r.time) = some "21:00" ∧
    c3Result.1.normalized_time = none := by
  decide

theorem updateGo_mem {p : Reservation → Bool} {f : Reservation → Reservation} :
    ∀ {l : List Reservation} {x : Reservation},
      x ∈ (ReservationRepository.updateGo p f l).2 → x ∈ l ∨ ∃ y ∈ l, x = f y := by
  intro l
  induction l with
  | nil => intro x hx; simp [ReservationRepository.updateGo] at hx
  | cons r rest ih =>
    intro x hx
    simp only [ReservationRepository.updateGo] at hx
    by_cases hp : p r
    · rw [if_pos hp] at hx
      rcases List.mem_cons.mp hx with h | h
      · exact Or.inr ⟨r, List.mem_cons_self r rest, h⟩
      · exact Or.inl (List.mem_cons_of_mem _ h)
    · rw [if_neg hp] at hx
      rcases List.mem_cons.mp hx with h | h
      · exact Or.inl (h ▸ List.mem_cons_self r rest)
      · rcases ih h with h' | ⟨y, hy, hxy⟩
        · exact Or.inl (List.mem_cons_of_mem _ h')
        · exact Or.inr ⟨y, List.mem_cons_of_mem _ hy, hxy⟩

theorem execute_no_table_preserved (settings : String → CapacityConfig) (a : BackendAction)
    (ctx : EngineCtx) (fid : String) (s : List Reservation)
    (ha : ActionNoTableId a) (hs : NoAssignedTables s) :
    NoAssignedTables (ReservationEngine.execute settings a ctx fid s).2 := by
  cases a with
  | check_availability d t p =>
    simp only [ReservationEngine.execute]
    split
    · exact hs
    · split
      · exact hs
      · exact hs
  | create_reservation p =>
    simp only [ReservationEngine.execute]
    split
    · exact hs
    · split
      · exact hs
      · split
        · exact hs
        · split
          · exact hs
          · intro x hx
            rcases List.mem_append.mp hx with h | h
            · exact hs x h
            · rcases List.mem_singleton.mp h with rfl
              exact ha
  | update_reservation rid? changes =>
    simp only [ReservationEngine.execute]
    split
    · exact hs
    · split
      · exact hs
      · split
        · exact hs
        · split
          · exact hs
          · split
            · exact hs
            · split
              · split
                · exact hs
                · intro x hx
                  rcases updateGo_mem hx with h | ⟨y, _, rfl⟩
                  · exact hs x h
                  · exact ha
              · intro x hx
                rcases updateGo_mem hx with h | ⟨y, _, rfl⟩
                · exact hs x h
                · exact ha
  | cancel_reservation rid? =>
    simp only [ReservationEngine.execute]
    split
    · exact hs
    · intro x hx
      rcases updateGo_mem hx with h | ⟨y, hy, rfl⟩
      · exact hs x h
      · exact hs y hy
  | none_ => exact hs

/-- C1 (amended): the engine never checks per-table overlap, so the
invariant is enforceable only vacuously — for every run whose create and
update actions never supply a `table_id`, every reachable store has no
assigned tables, and hence no two active reservations sharing a table. -/
theorem reachableNoTable_tablesDisjoint (settings : String → CapacityConfig)
    {s : List Reservation} (h : ReachableNoTable settings s) :
    TablesDisjoint settings s := by
  have hNo : NoAssignedTables s := by
    induction h with
    | empty => intro r hr; simp at hr
    | step a ctx fid hprev hact ih =>
      exact execute_no_table_preserved _ _ _ _ _ hact ih
  intro r1 h1 r2 h2 _ _ _ _ _ htid _
  exact absurd (hNo r1 h1) htid

/-- Witness for the amended C1: a one-create run without `table_id`. -/
theorem reachableNoTable_tablesDisjoint_witness :
    TablesDisjoint stgsDefault
      (ReservationEngine.execute stgsDefault
        (.create_reservation ⟨some "2026-05-20", some "13:00", some 2, some "Ana", none,
          none, none⟩) c1Ctx "id1" []).2 :=
  reachableNoTable_tablesDisjoint stgsDefault
    (ReachableNoTable.step _ c1Ctx "id1" ReachableNoTable.empty rfl)

theorem updateGo_fst_of_find {p : Reservation → Bool} {f : Reservation → Reservation} :
    ∀ {l : List Reservation} {r : Reservation}, l.find? p = some r →
      (ReservationRepository.updateGo p f l).1 = some (f r) := by
  intro l
  induction l with
  | nil => intro r h; simp at h
  | cons a rest ih =>
    intro r h
    simp only [ReservationRepository.updateGo]
    by_cases hp : p a
    · rw [List.find?_cons_of_pos _ hp] at h
      cases h
      rw [if_pos hp]
    · rw [List.find?_cons_of_neg _ hp] at h
      rw [if_neg hp]
      exact ih h

/-- C4: an update supplying only `notes` (in particular no `table_id`)
succeeds without re-validation, but overwrites every patched field: the
stored `table_id` is cleared to the absent supplied value, `notes` is
replaced, and the stored time is replaced by its own slot-rounded
normalization even though no time change was requested. -/
theorem update_overwrites_absent_fields (settings : String → CapacityConfig)
    (ctx : EngineCtx) (fid : String) (store : List Reservation) (id : String)
    (r : Reservation) (nts : Option String) (m : Int)
    (hid : id ≠ "")
    (hfound : ReservationRepository.getById store ctx.restaurant_id id = some r)
    (hdate : r.date ≠ "")
    (htime : parseTimeToMinutes r.time = some m) :
    (ReservationEngine.execute settings
        (.update_reservation (some id) ⟨none, none, none, none, nts⟩) ctx fid store).1 =
      { success := true,
        data := some { r with
          time := minutesToHHMM (roundToSlot m (settings ctx.restaurant_id).slotIntervalMin
            (settings ctx.restaurant_id).slotRounding),
          table_id := none,
          notes := nts } } := by
  have h1 : strTruthy (some id) = true := by simp [strTruthy, hid]
  have h2 : effNewDate ⟨none, none, none, none, nts⟩ r ctx.now = some r.date := by
    simp [effNewDate, strTruthy]
  have h3 : effNewTime ⟨none, none, none, none, nts⟩ r = r.time := by
    simp [effNewTime, strTruthy]
  have h4 : effNewSize ⟨none, none, none, none, nts⟩ r = r.partySize := by
    simp [effNewSize, intTruthy]
  have h5 : needsCheck r.date r.time r.partySize r = false := by
    simp [needsCheck]
  simp only [ReservationEngine.execute, h1, Bool.not_true, Bool.false_eq_true, if_false,
    Option.getD_some, hfound, h2, h3, h4, if_neg hdate, htime, h5, Bool.false_eq_true,
    if_false]
  have h6 : (ReservationRepository.update store ctx.restaurant_id id
      ⟨r.date, minutesToHHMM (roundToSlot m (settings ctx.restaurant_id).slotIntervalMin
        (settings ctx.restaurant_id).slotRounding), r.partySize, none, nts⟩).1 =
      some (applyPatch r ⟨r.date, minutesToHHMM (roundToSlot m
        (settings ctx.restaurant_id).slotIntervalMin
        (settings ctx.restaurant_id).slotRounding), r.partySize, none, nts⟩) :=
    updateGo_fst_of_find hfound
  rw [h6]
  rfl

/-- Witness for C4: notes-only update of a stored reservation with an
assigned table and a slot-misaligned stored time. -/
theorem update_overwrites_absent_fields_witness :
    (ReservationEngine.execute stgsDefault
        (.update_reservation (some "a1") ⟨none, none, none, none, some "vip"⟩) c1Ctx "f"
        [⟨"a1", "r1", "Bob", "p", "2026-05-20", "20:45", 4, some "old", some "T3",
          .active, 0⟩]).1 =
      { success := true,
        data := some ⟨"a1", "r1", "Bob", "p", "2026-05-20", "21:00", 4, some "vip", none,
          .active, 0⟩ } := by
  have h := update_overwrites_absent_fields stgsDefault c1Ctx "f"
    [⟨"a1", "r1", "Bob", "p", "2026-05-20", "20:45", 4, some "old", some "T3", .active, 0⟩]
    "a1"
    ⟨"a1", "r1", "Bob", "p", "2026-05-20", "20:45", 4, some "old", some "T3", .active, 0⟩
    (some "vip") 1245 (by decide) (by decide) (by decide) (by decide)
  exact h

/-- C5: an update whose effective date, time and party size all equal the
stored values (for example a notes- or table-only change) has
`needsCheck = false` (the availability check is never invoked), never
reports `not_available`, and succeeds with the updated record. -/
theorem update_unchanged_skips_check (settings : String → CapacityConfig)
    (ctx : EngineCtx) (fid : String) (store : List Reservation) (id : String)
    (r : Reservation) (changes : UpdateChanges) (m : Int)
    (hid : id ≠ "")
    (hfound : ReservationRepository.getById store ctx.restaurant_id id = some r)
    (hdate : r.date ≠ "")
    (hd : effNewDate changes r ctx.now = some r.date)
    (ht : effNewTime changes r = r.time)
    (hsz : effNewSize changes r = r.partySize)
    (htime : parseTimeToMinutes r.time = some m) :
    needsCheck r.date r.time r.partySize r = false ∧
    (ReservationEngine.execute settings (.update_reservation (some id) changes) ctx fid
        store).1 =
      { success := true,
        data := some (applyPatch r
          ⟨r.date, minutesToHHMM (roundToSlot m (settings ctx.restaurant_id).slotIntervalMin
            (settings ctx.restaurant_id).slotRounding), r.partySize, changes.table_id,
            changes.notes⟩) } := by
  have h1 : strTruthy (some id) = true := by simp [strTruthy, hid]
  have h5 : needsCheck r.date r.time r.partySize r = false := by simp [needsCheck]
  refine ⟨h5, ?_⟩
  simp only [ReservationEngine.execute, h1, Bool.not_true, Bool.false_eq_true, if_false,
    Option.getD_some, hfound, hd, ht, hsz, if_neg hdate, htime, h5, Bool.false_eq_true,
    if_false]
  have h6 : (ReservationRepository.update store ctx.restaurant_id id
      ⟨r.date, minutesToHHMM (roundToSlot m (settings ctx.restaurant_id).slotIntervalMin
        (settings ctx.restaurant_id).slotRounding), r.partySize, changes.table_id,
        changes.notes⟩).1 =
      some (applyPatch r ⟨r.date, minutesToHHMM (roundToSlot m
        (settings ctx.restaurant_id).slotIntervalMin
        (settings ctx.restaurant_id).slotRounding), r.partySize, changes.table_id,
        changes.notes⟩) :=
    updateGo_fst_of_find hfound
  rw [h6]

/-- Witness for C5: a table-only change passes through unvalidated. -/
theorem update_unchanged_skips_check_witness :
    needsCheck "2026-05-20" "21:00" 4
      ⟨"a1", "r1", "Bob", "p", "2026-05-20", "21:00", 4, none, none, .active, 0⟩ = false ∧
    (ReservationEngine.execute stgsDefault
        (.update_reservation (some "a1") ⟨none, none, none, some "T9", none⟩) c1Ctx "f"
        [⟨"a1", "r1", "Bob", "p", "2026-05-20", "21:00", 4, none, none, .active, 0⟩]).1 =
      { success := true,
        data := some (applyPatch
          ⟨"a1", "r1", "Bob", "p", "2026-05-20", "21:00", 4, none, none, .active, 0⟩
          ⟨"2026-05-20", "21:00", 4, some "T9", none⟩) } := by
  have h := update_unchanged_skips_check stgsDefault c1Ctx "f"
    [⟨"a1", "r1", "Bob", "p", "2026-05-20", "21:00", 4, none, none, .active, 0⟩] "a1"
    ⟨"a1", "r1", "Bob", "p", "2026-05-20", "21:00", 4, none, none, .active, 0⟩
    ⟨none, none, none, some "T9", none⟩ 1260
    (by decide) (by decide) (by decide) (by decide) (by decide) (by decide) (by decide)
  exact h

/-- C6: if the pre-write availability re-check of `create_reservation`
does not answer `available`, the engine returns `success = false` with
`availability = not_available`, the check's reason, its freshly computed
alternatives, and leaves the reservation store unchanged. -/
theorem create_aborts_on_failed_recheck (settings : String → CapacityConfig)
    (ctx : EngineCtx) (fid : String) (store : List Reservation)
    (d t nm : String) (ps : Int) (pnotes pphone ptid : Option String)
    (nd : String) (m : Int)
    (hd : d ≠ "") (ht : t ≠ "") (hps : ps ≠ 0) (hnm : nm ≠ "")
    (hnorm : normalizeDateInput d ctx.now = some nd)
    (hparse : parseTimeToMinutes t = some m)
    (hfail : (AvailabilityService.check (settings ctx.restaurant_id) store
        ctx.restaurant_id nd
        (minutesToHHMM (roundToSlot m (settings ctx.restaurant_id).slotIntervalMin
          (settings ctx.restaurant_id).slotRounding)) ps none).status ≠ .available) :
    ReservationEngine.execute settings
        (.create_reservation ⟨some d, some t, some ps, some nm, pnotes, pphone, ptid⟩)
        ctx fid store =
      ({ success := false, availability := some .not_available,
         reason := (AvailabilityService.check (settings ctx.restaurant_id) store
           ctx.restaurant_id nd
           (minutesToHHMM (roundToSlot m (settings ctx.restaurant_id).slotIntervalMin
             (settings ctx.restaurant_id).slotRounding)) ps none).reason,
         alternatives := some (AvailabilityService.check (settings ctx.restaurant_id) store
           ctx.restaurant_id nd
           (minutesToHHMM (roundToSlot m (settings ctx.restaurant_id).slotIntervalMin
             (settings ctx.restaurant_id).slotRounding)) ps none).alternatives,
         normalized_time := (AvailabilityService.check (settings ctx.restaurant_id) store
           ctx.restaurant_id nd
           (minutesToHHMM (roundToSlot m (settings ctx.restaurant_id).slotIntervalMin
             (settings ctx.restaurant_id).slotRounding)) ps none).normalized_time,
         message := some "Availability changed during booking." }, store) := by
  have h1 : (!strTruthy (some d) || !strTruthy (some t) || !intTruthy (some ps) ||
      !strTruthy (some nm)) = false := by
    simp [strTruthy, intTruthy, hd, ht, hps, hnm]
  simp only [ReservationEngine.execute, h1, Bool.false_eq_true, if_false,
    Option.getD_some, hnorm, hparse, if_pos hfail]

/-- Witness for C6: a party of 9 fails the default `maxPartySize = 8`
re-check; the store stays empty. -/
theorem create_aborts_on_failed_recheck_witness :
    ReservationEngine.execute stgsDefault
        (.create_reservation ⟨some "2026-05-20", some "21:00", some 9, some "Ana", none,
          none, none⟩) c1Ctx "id1" [] =
      ({ success := false, availability := some .not_available,
         reason := (AvailabilityService.check RESERVATION_CONFIG [] "r1" "2026-05-20"
           (minutesToHHMM (roundToSlot 1260 RESERVATION_CONFIG.slotIntervalMin
             RESERVATION_CONFIG.slotRounding)) 9 none).reason,
         alternatives := some (AvailabilityService.check RESERVATION_CONFIG [] "r1"
           "2026-05-20"
           (minutesToHHMM (roundToSlot 1260 RESERVATION_CONFIG.slotIntervalMin
             RESERVATION_CONFIG.slotRounding)) 9 none).alternatives,
         normalized_time := (AvailabilityService.check RESERVATION_CONFIG [] "r1"
           "2026-05-20"
           (minutesToHHMM (roundToSlot 1260 RESERVATION_CONFIG.slotIntervalMin
             RESERVATION_CONFIG.slotRounding)) 9 none).normalized_time,
         message := some "Availability changed during booking." }, []) :=
  create_aborts_on_failed_recheck stgsDefault c1Ctx "id1" [] "2026-05-20" "21:00" "Ana" 9
    none none none "2026-05-20" 1260 (by decide) (by decide) (by decide) (by decide)
    (by decide) (by decide) (by decide)

/-- Unfolding of the availability pipeline when the date is open, the
party fits, the slot-aligned time lies in a found shift and the booking
ends before the shift does: only the capacity rule decides. -/
theorem check_eq_of_shift (cfg : CapacityConfig) (store : List Reservation)
    (rid date time : String) (ps : Int) (ex : Option String) (tm e : Int) (sh : ShiftRange)
    (hraw : parseTimeToMinutes time = some tm)
    (hround : roundToSlot tm cfg.slotIntervalMin cfg.slotRounding = tm)
    (hopen : date ∉ cfg.closedDates)
    (hmax : ¬ ps > cfg.maxPartySize)
    (hsh : getShift cfg tm = some sh)
    (hend : parseTimeToMinutes sh.«end» = some e)
    (hturn : ¬ tm + cfg.standardDurationMin > e) :
    AvailabilityService.check cfg store rid date time ps ex =
      if checkCapacity cfg store rid date tm cfg.standardDurationMin ps ex then
        { status := .available, alternatives := [], normalized_time := none }
      else
        { status := .not_available, reason := some .capacity,
          alternatives := findSmartAlternatives cfg store rid date tm ps sh ex,
          normalized_time := none } := by
  have hturnb : decide (tm + cfg.standardDurationMin > e) = false := decide_eq_false hturn
  have hrm : roundedMinOf cfg time = some tm := by
    unfold roundedMinOf
    rw [hraw, Option.map_some', hround]
  have hnt : normalizedTimeOf cfg time = none := by
    unfold normalizedTimeOf
    rw [hraw]
    simp [hround]
  simp only [AvailabilityService.check, hrm, hnt, Option.some_bind, hsh, Option.map_some',
    hend, hturnb, if_neg hopen, if_neg hmax, Bool.false_eq_true, ite_false]

/-- C2: with totalCapacity 30, duration 90, buffer 10, 30-minute slots, an
open date, a found shift ending no earlier than 23:30 for both request
times, and exactly two active reservations of 15 at 20:00 and 14 at 20:15,
a party of 5 at 20:30 is rejected for capacity (29 + 5 > 30) while the
same party at 22:00 is available. -/
theorem check_capacity_scenario (cfg : CapacityConfig) (store : List Reservation)
    (rid date : String) (r1 r2 : Reservation)
    (hcap : cfg.totalCapacity = 30) (hmax : 5 ≤ cfg.maxPartySize)
    (hdur : cfg.standardDurationMin = 90) (hbuf : cfg.bufferMin = 10)
    (hint : cfg.slotIntervalMin = 30)
    (hopen : date ∉ cfg.closedDates)
    (hsh1 : ∃ sh, getShift cfg 1230 = some sh ∧
      ∃ e, parseTimeToMinutes sh.«end» = some e ∧ 1410 ≤ e)
    (hsh2 : ∃ sh, getShift cfg 1320 = some sh ∧
      ∃ e, parseTimeToMinutes sh.«end» = some e ∧ 1410 ≤ e)
    (hres : (ReservationRepository.getByDate store rid date).Perm [r1, r2])
    (h1t : r1.time = "20:00") (h1s : r1.partySize = 15)
    (h2t : r2.time = "20:15") (h2s : r2.partySize = 14) :
    ((AvailabilityService.check cfg store rid date "20:30" 5 none).status =
        .not_available ∧
      (AvailabilityService.check cfg store rid date "20:30" 5 none).reason =
        some .capacity) ∧
    (AvailabilityService.check cfg store rid date "22:00" 5 none).status = .available := by
  obtain ⟨sh1, hsh1f, e1, he1, he1ge⟩ := hsh1
  obtain ⟨sh2, hsh2f, e2, he2, he2ge⟩ := hsh2
  have hload30 : reservationLoad cfg 1230 (1230 + cfg.standardDurationMin + cfg.bufferMin)
      none (ReservationRepository.getByDate store rid date) = 29 := by
    rw [reservationLoad_perm cfg _ _ none hres]
    simp only [reservationLoad, excludedMatch, h1t, h2t, hdur, hbuf,
      (by decide : parseTimeToMinutes "20:00" = some (1200 : Int)),
      (by decide : parseTimeToMinutes "20:15" = some (1215 : Int)), h1s, h2s]
    norm_num
  have hload220 : reservationLoad cfg 1320 (1320 + cfg.standardDurationMin + cfg.bufferMin)
      none (ReservationRepository.getByDate store rid date) = 0 := by
    rw [reservationLoad_perm cfg _ _ none hres]
    simp only [reservationLoad, excludedMatch, h1t, h2t, hdur, hbuf,
      (by decide : parseTimeToMinutes "20:00" = some (1200 : Int)),
      (by decide : parseTimeToMinutes "20:15" = some (1215 : Int)), h1s, h2s]
    norm_num
  have hcc30 : checkCapacity cfg store rid date 1230 cfg.standardDurationMin 5 none
      = false := by
    unfold checkCapacity
    rw [hload30, hcap]
    decide
  have hcc220 : checkCapacity cfg store rid date 1320 cfg.standardDurationMin 5 none
      = true := by
    unfold checkCapacity
    rw [hload220, hcap]
    decide
  have hch30 := check_eq_of_shift cfg store rid date "20:30" 5 none 1230 e1 sh1
    (by decide)
    (by rw [hint]; exact roundToSlot_dvd 1230 30 _ ⟨41, by norm_num⟩)
    hopen (by omega) hsh1f he1 (by omega)
  have hch220 := check_eq_of_shift cfg store rid date "22:00" 5 none 1320 e2 sh2
    (by decide)
    (by rw [hint]; exact roundToSlot_dvd 1320 30 _ ⟨44, by norm_num⟩)
    hopen (by omega) hsh2f he2 (by omega)
  rw [hch30, hch220, hcc30, hcc220]
  exact ⟨⟨rfl, rfl⟩, rfl⟩

/-- Witness for C2 at the default config with the dinner shift
`20:00–23:30` and a concrete two-reservation store. -/
theorem check_capacity_scenario_witness :
    ((AvailabilityService.check RESERVATION_CONFIG
        [⟨"a1", "r1", "Bob", "p", "2026-05-20", "20:00", 15, none, none, .active, 0⟩,
         ⟨"a2", "r1", "Cal", "p", "2026-05-20", "20:15", 14, none, none, .active, 0⟩]
        "r1" "2026-05-20" "20:30" 5 none).status = .not_available ∧
      (AvailabilityService.check RESERVATION_CONFIG
        [⟨"a1", "r1", "Bob", "p", "2026-05-20", "20:00", 15, none, none, .active, 0⟩,
         ⟨"a2", "r1", "Cal", "p", "2026-05-20", "20:15", 14, none, none, .active, 0⟩]
        "r1" "2026-05-20" "20:30" 5 none).reason = some .capacity) ∧
    (AvailabilityService.check RESERVATION_CONFIG
        [⟨"a1", "r1", "Bob", "p", "2026-05-20", "20:00", 15, none, none, .active, 0⟩,
         ⟨"a2", "r1", "Cal", "p", "2026-05-20", "20:15", 14, none, none, .active, 0⟩]
        "r1" "2026-05-20" "22:00" 5 none).status = .available :=
  check_capacity_scenario RESERVATION_CONFIG
    [⟨"a1", "r1", "Bob", "p", "2026-05-20", "20:00", 15, none, none, .active, 0⟩,
     ⟨"a2", "r1", "Cal", "p", "2026-05-20", "20:15", 14, none, none, .active, 0⟩]
    "r1" "2026-05-20"
    ⟨"a1", "r1", "Bob", "p", "2026-05-20", "20:00", 15, none, none, .active, 0⟩
    ⟨"a2", "r1", "Cal", "p", "2026-05-20", "20:15", 14, none, none, .active, 0⟩
    (by decide) (by decide) (by decide) (by decide) (by decide) (by decide)
    ⟨⟨"20:00", "23:30"⟩, by decide, 1410, by decide, by decide⟩
    ⟨⟨"20:00", "23:30"⟩, by decide, 1410, by decide, by decide⟩
    (by decide) (by decide) (by decide) (by decide) (by decide)

/-- C9: every table returned by `listAvailableTablesForReservation` has
effective capacity (1 for stools) at least the party size, and no returned
table has a non-excluded active reservation of the tenant and date
assigned to it whose window overlaps the slot-rounded requested window. -/
theorem listAvailable_sound (cfg : CapacityConfig) (rid date time : String) (ps : Int)
    (tables : List RestaurantTable) (reservations : List Reservation)
    (ex : Option String) (t : RestaurantTable)
    (ht : t ∈ listAvailableTablesForReservation cfg rid date time ps tables reservations
      ex) :
    ps ≤ effectiveCapacity t ∧
    ∀ r ∈ reservations, r.restaurant_id = rid → r.date = date → r.status = .active →
      excludedMatch ex r.id = false →
      ∀ tid, r.table_id = some tid → tid ≠ "" → tid = t.id →
      ∀ w target, toWindow r.time cfg.standardDurationMin cfg.bufferMin = some w →
        requestTargetWindow cfg time = some target →
        isOverlapping target w = false := by
  unfold listAvailableTablesForReservation at ht
  split at ht
  · simp at ht
  next rawMin hparse =>
    split at ht
    · simp at ht
    next target' htw =>
      have hmem := (List.Perm.mem_iff (List.perm_insertionSort tableLE _)).1 ht
      obtain ⟨hmem1, hfree⟩ := List.mem_filter.mp hmem
      obtain ⟨hmem2, hcap⟩ := List.mem_filter.mp hmem1
      refine ⟨of_decide_eq_true hcap, ?_⟩
      intro r hr hrid hrdate hract hexcl tid htid htidne htidt w target hw htarget
      have hrel : r ∈ reservations.filter (fun r =>
          r.restaurant_id == rid && r.date == date && r.status == ReservationStatus.active) := by
        refine List.mem_filter.mpr ⟨hr, ?_⟩
        simp [hrid, hrdate, hract]
      have hall := List.all_eq_true.mp hfree r hrel
      rw [hexcl] at hall
      simp only [if_false, Bool.false_eq_true] at hall
      rw [htid] at hall
      simp only [] at hall
      rw [if_neg htidne] at hall
      rw [if_neg (by simp [htidt] : ¬ tid ≠ t.id)] at hall
      rw [hw] at hall
      simp only [] at hall
      have htgt : target = target' := by
        unfold requestTargetWindow at htarget
        rw [hparse] at htarget
        simp only [Option.some_bind] at htarget
        rw [htw] at htarget
        exact (Option.some_inj.mp htarget).symm
      rw [htgt]
      cases hov : isOverlapping target' w
      · rfl
      · rw [hov] at hall; simp at hall

/-- Witness for C9: with one free four-seat table and one active
reservation assigned to a different table, the four-seat table is returned
and satisfies both guarantees. -/
theorem listAvailable_sound_witness :
    (2 : Int) ≤ effectiveCapacity ⟨"T4", "r1", "Mesa 4", 4, none, none, .free⟩ ∧
    ∀ r ∈ [(⟨"b1", "r1", "Eva", "p", "2026-05-20", "13:00", 2, none, some "T9", .active,
        0⟩ : Reservation)],
      r.restaurant_id = "r1" → r.date = "2026-05-20" → r.status = .active →
      excludedMatch none r.id = false →
      ∀ tid, r.table_id = some tid → tid ≠ "" →
        tid = (⟨"T4", "r1", "Mesa 4", 4, none, none, .free⟩ : RestaurantTable).id →
      ∀ w target,
        toWindow r.time RESERVATION_CONFIG.standardDurationMin RESERVATION_CONFIG.bufferMin
          = some w →
        requestTargetWindow RESERVATION_CONFIG "13:00" = some target →
        isOverlapping target w = false :=
  listAvailable_sound RESERVATION_CONFIG "r1" "2026-05-20" "13:00" 2
    [⟨"T4", "r1", "Mesa 4", 4, none, none, .free⟩]
    [⟨"b1", "r1", "Eva", "p", "2026-05-20", "13:00", 2, none, some "T9", .active, 0⟩]
    none ⟨"T4", "r1", "Mesa 4", 4, none, none, .free⟩ (by decide)

theorem pad2_toList : ∀ n < 100, (pad2 n).toList =
    [Char.ofNat (48 + n / 10), Char.ofNat (48 + n % 10)] := by decide

theorem digit_isDigit : ∀ n < 10, (Char.ofNat (48 + n)).isDigit = true := by decide

theorem digit_not_ws : ∀ n < 10, (Char.ofNat (48 + n)).isWhitespace = false := by decide

theorem dg_digit : ∀ n < 10, dg (Char.ofNat (48 + n)) = (n : Int) := by decide

theorem mkHM_bounds {h mm v : Int} (hv : mkHM h mm = some v) : 0 ≤ v ∧ v ≤ 1439 := by
  unfold mkHM at hv
  split at hv
  · cases hv
    omega
  · exact absurd hv (by simp)

theorem parseTimeToMinutes_bounds {s : String} {m : Int}
    (h : parseTimeToMinutes s = some m) : 0 ≤ m ∧ m ≤ 1439 := by
  unfold parseTimeToMinutes at h
  split at h
  · split at h
    · exact mkHM_bounds h
    · exact absurd h (by simp)
  · split at h
    · exact mkHM_bounds h
    · exact absurd h (by simp)
  · split at h
    · exact mkHM_bounds h
    · exact absurd h (by simp)
  · split at h
    · exact mkHM_bounds h
    · split at h
      · exact mkHM_bounds h
      · exact absurd h (by simp)
  · split at h
    · exact mkHM_bounds h
    · exact absurd h (by simp)
  · exact absurd h (by simp)

theorem jsTrim_five {s : String} {a b c d e : Char} (h : s.toList = [a, b, c, d, e])
    (ha : a.isWhitespace = false) (he : e.isWhitespace = false) :
    jsTrim s = [a, b, c, d, e] := by
  unfold jsTrim
  rw [h]
  simp [List.dropWhile, ha, he]

/-- `minutesToHHMM` inverts back through `parseTimeToMinutes` on the
whole representable range. -/
theorem parse_minutesToHHMM {m : Int} (h0 : 0 ≤ m) (h1 : m ≤ 1439) :
    parseTimeToMinutes (minutesToHHMM m) = some m := by
  have hclamp : max 0 (min (24 * 60 - 1) m) = m := by omega
  have hh10 : m.toNat / 60 / 10 < 10 := by omega
  have hh1 : m.toNat / 60 % 10 < 10 := by omega
  have hm10 : m.toNat % 60 / 10 < 10 := by omega
  have hm1 : m.toNat % 60 % 10 < 10 := by omega
  have hl : (minutesToHHMM m).toList =
      [Char.ofNat (48 + m.toNat / 60 / 10), Char.ofNat (48 + m.toNat / 60 % 10), ':',
       Char.ofNat (48 + m.toNat % 60 / 10), Char.ofNat (48 + m.toNat % 60 % 10)] := by
    show (pad2 _ ++ ":" ++ pad2 _).toList = _
    rw [hclamp]
    have := pad2_toList (m.toNat / 60) (by omega)
    have := pad2_toList (m.toNat % 60) (by omega)
    simp only [String.toList] at *
    simp_all [String.data_append]
  have hjt : jsTrim (minutesToHHMM m) =
      [Char.ofNat (48 + m.toNat / 60 / 10), Char.ofNat (48 + m.toNat / 60 % 10), ':',
       Char.ofNat (48 + m.toNat % 60 / 10), Char.ofNat (48 + m.toNat % 60 % 10)] :=
    jsTrim_five hl (digit_not_ws _ hh10) (digit_not_ws _ hm1)
  unfold parseTimeToMinutes
  rw [hjt]
  simp only []
  rw [if_pos]
  · rw [dg_digit _ hh10, dg_digit _ hh1, dg_digit _ hm10, dg_digit _ hm1]
    unfold mkHM
    rw [if_pos (by constructor <;> omega)]
    congr 1
    omega
  · simp [digit_isDigit _ hh10, digit_isDigit _ hh1, digit_isDigit _ hm10,
      digit_isDigit _ hm1]

theorem findNextDayGo_length (cfg : CapacityConfig) (store : List Reservation)
    (rid : String) (timeMin? : Option Int) (ps : Int) (ex : Option String) :
    ∀ (fuel : Nat) (cur : DateYMD) (acc : List DateTimeAlt), acc.length ≤ 2 →
      (findNextDayGo cfg store rid timeMin? ps ex fuel cur acc).length ≤ 2 := by
  intro fuel
  induction fuel with
  | zero => intro cur acc h; exact h
  | succ n ih =>
    intro cur acc h
    unfold findNextDayGo
    split
    · exact h
    next hlt =>
      split
      · exact ih _ _ h
      · split
        · exact ih _ _ h
        · split
          · split
            · apply ih
              simp only [List.length_append, List.length_singleton]
              omega
            · exact ih _ _ h
          · exact ih _ _ h

theorem findNextDayAlternatives_length (cfg : CapacityConfig) (store : List Reservation)
    (rid sd : String) (timeMin? : Option Int) (ps : Int) (ex : Option String) :
    (findNextDayAlternatives cfg store rid sd timeMin? ps ex).length ≤ 2 := by
  unfold findNextDayAlternatives
  split
  · simp
  · exact findNextDayGo_length cfg store rid timeMin? ps ex 7 _ [] (by simp)

theorem oohGo_length (cfg : CapacityConfig) (store : List Reservation) (rid : String)
    (ps : Int) (ex : Option String) :
    ∀ (fuel : Nat) (cur : DateYMD) (alts : List DateTimeAlt), alts.length ≤ 2 →
      (oohGo cfg store rid ps ex fuel cur alts).length ≤ 2 := by
  intro fuel
  induction fuel with
  | zero => intro cur alts h; exact h
  | succ n ih =>
    intro cur alts h
    unfold oohGo
    split
    · exact h
    next hlt =>
      split
      · exact ih _ _ h
      · apply ih
        simp only [List.length_append, List.length_take, List.length_map]
        omega

theorem findOutOfHoursAlternatives_length (cfg : CapacityConfig)
    (store : List Reservation) (rid date : String) (requestedMin? : Option Int) (ps : Int)
    (ex : Option String) :
    (findOutOfHoursAlternatives cfg store rid date requestedMin? ps ex).length ≤ 2 := by
  unfold findOutOfHoursAlternatives
  split
  · simp
  · apply oohGo_length
    simp only [List.length_take, List.length_map]
    omega

theorem findSmartAlternatives_length (cfg : CapacityConfig) (store : List Reservation)
    (rid date : String) (req ps : Int) (shift : ShiftRange) (ex : Option String) :
    (findSmartAlternatives cfg store rid date req ps shift ex).length ≤ 2 := by
  unfold findSmartAlternatives
  split
  · simp only [List.length_map, List.length_take]
    omega
  · simp

theorem suggestGo_length (cfg : CapacityConfig) (rid date : String) (ps : Int)
    (tables : List RestaurantTable) (reservations : List Reservation) (limit : Nat) :
    ∀ (cands : List Int) (out : List DateTimeAlt), out.length ≤ limit →
      (suggestGo cfg rid date ps tables reservations limit cands out).length ≤ limit := by
  intro cands
  induction cands with
  | nil => intro out h; exact h
  | cons t rest ih =>
    intro out h
    unfold suggestGo
    split
    · exact h
    next hlt =>
      split
      · apply ih
        simp only [List.length_append, List.length_singleton]
        omega
      · exact ih _ h

theorem suggestAlternativeTimesByTables_length (cfg : CapacityConfig)
    (rid date time : String) (ps : Int) (tables : List RestaurantTable)
    (reservations : List Reservation) :
    (suggestAlternativeTimesByTables cfg rid date time ps tables reservations 2).length
      ≤ 2 := by
  unfold suggestAlternativeTimesByTables
  split
  · simp
  · split
    · simp
    · split
      · exact suggestGo_length cfg rid date ps tables reservations 2 _ [] (by simp)
      · simp

theorem check_alternatives_length (cfg : CapacityConfig) (store : List Reservation)
    (rid date time : String) (ps : Int) (ex : Option String) :
    (AvailabilityService.check cfg store rid date time ps ex).alternatives.length ≤ 2 := by
  unfold AvailabilityService.check
  split
  · exact findNextDayAlternatives_length cfg store rid date _ ps ex
  · split
    · simp
    · split
      · exact findOutOfHoursAlternatives_length cfg store rid date _ ps ex
      · split
        · exact findSmartAlternatives_length cfg store rid date _ ps _ ex
        · split
          · simp
          · exact findSmartAlternatives_length cfg store rid date _ ps _ ex

theorem slotsFromTo_mem {s l i t : Int} (ht : t ∈ slotsFromTo s l i) : s ≤ t ∧ t ≤ l := by
  unfold slotsFromTo slotCount at ht
  by_cases hle : i ≤ 0 ∨ l < s
  · rw [if_pos hle] at ht
    simp at ht
  · rw [if_neg hle] at ht
    push_neg at hle
    obtain ⟨hi, hls⟩ := hle
    obtain ⟨j, hj, rfl⟩ := List.mem_map.mp ht
    have hj' := List.mem_range.mp hj
    constructor
    · have hpos : 0 ≤ (j : Int) * i := by positivity
      omega
    · have hj2 : j ≤ (l - s).toNat / i.toNat := by omega
      have hmul : j * i.toNat ≤ (l - s).toNat := (Nat.le_div_iff_mul_le (by omega)).1 hj2
      have hcast : (j : Int) * i ≤ l - s := by
        have h1 : ((j * i.toNat : Nat) : Int) ≤ (((l - s).toNat : Nat) : Int) := by
          exact_mod_cast hmul
        rw [Nat.cast_mul, Int.toNat_of_nonneg (by omega : (0 : Int) ≤ i),
          Int.toNat_of_nonneg (by omega : (0 : Int) ≤ l - s)] at h1
        exact h1
      omega

theorem altsOrdered_map_of_sorted {req : Int} {date : String} {l : List Int}
    (hb : ∀ t ∈ l, 0 ≤ t ∧ t ≤ 1439) (hs : l.Pairwise (altLe req)) :
    AltsOrderedBy req (l.map (fun m => (⟨date, minutesToHHMM m⟩ : DateTimeAlt))) := by
  unfold AltsOrderedBy
  rw [List.pairwise_map]
  refine hs.imp_of_mem ?_
  intro a b ha hb'
  obtain ⟨ha0, ha1⟩ := hb a ha
  obtain ⟨hb0, hb1⟩ := hb b hb'
  intro hab
  simp only [altDistTime, parse_minutesToHHMM ha0 ha1, parse_minutesToHHMM hb0 hb1]
  exact hab

/-- `findSmartAlternatives` returns a list ordered by ascending distance
from the requested time, earlier time first on ties. -/
theorem findSmartAlternatives_ordered (cfg : CapacityConfig) (store : List Reservation)
    (rid date : String) (req ps : Int) (shift : ShiftRange) (ex : Option String)
    (hdur : 1 ≤ cfg.standardDurationMin) :
    AltsOrderedBy req (findSmartAlternatives cfg store rid date req ps shift ex) := by
  unfold findSmartAlternatives
  split
  next shiftStart shiftEnd hps hpe =>
    apply altsOrdered_map_of_sorted
    · intro t htm
      have h1 : t ∈ List.insertionSort (altLe req) _ :=
        (List.take_sublist 2 _).subset htm
      have h2 := (List.perm_insertionSort (altLe req) _).subset h1
      have h3 := List.mem_filter.mp (List.mem_filter.mp h2).1
      have hbounds := slotsFromTo_mem h3.1
      have hs0 := parseTimeToMinutes_bounds hps
      have hs1 := parseTimeToMinutes_bounds hpe
      omega
    · exact List.Pairwise.sublist (List.take_sublist 2 _)
        (List.sorted_insertionSort (altLe req) _)
  · exact List.Pairwise.nil

theorem suggestGo_sublist (cfg : CapacityConfig) (rid date : String) (ps : Int)
    (tables : List RestaurantTable) (reservations : List Reservation) (limit : Nat) :
    ∀ (cands : List Int) (out : List DateTimeAlt), ∃ l' : List Int,
      List.Sublist l' cands ∧
      suggestGo cfg rid date ps tables reservations limit cands out =
        out ++ l'.map (fun t => (⟨date, minutesToHHMM t⟩ : DateTimeAlt)) := by
  intro cands
  induction cands with
  | nil =>
    intro out
    exact ⟨[], List.Sublist.refl [], by simp [suggestGo]⟩
  | cons t rest ih =>
    intro out
    unfold suggestGo
    split
    · exact ⟨[], List.nil_sublist _, by simp⟩
    · split
      · obtain ⟨l', hsub, heq⟩ := ih (out ++ [⟨date, minutesToHHMM t⟩])
        refine ⟨t :: l', List.Sublist.cons₂ t hsub, ?_⟩
        rw [heq]
        simp
      · obtain ⟨l', hsub, heq⟩ := ih out
        exact ⟨l', List.Sublist.cons t hsub, heq⟩

/-- `suggestAlternativeTimesByTables` (at its default limit) is ordered by
ascending distance from the slot-rounded requested time, earlier first on
ties. -/
theorem suggestAlternativeTimes_ordered (cfg : CapacityConfig) (rid date time : String)
    (ps : Int) (tables : List RestaurantTable) (reservations : List Reservation)
    (rawMin : Int) (hdur : 1 ≤ cfg.standardDurationMin)
    (hparse : parseTimeToMinutes time = some rawMin) :
    AltsOrderedBy (roundToSlot rawMin cfg.slotIntervalMin cfg.slotRounding)
      (suggestAlternativeTimesByTables cfg rid date time ps tables reservations 2) := by
  unfold suggestAlternativeTimesByTables
  rw [hparse]
  simp only []
  split
  · exact List.Pairwise.nil
  · split
    next shiftStart shiftEnd hps hpe =>
      obtain ⟨l', hsub, heq⟩ := suggestGo_sublist cfg rid date ps tables reservations 2
        (((slotsFromTo shiftStart (shiftEnd - cfg.standardDurationMin)
            cfg.slotIntervalMin).filter
          (fun t => t ≠ roundToSlot rawMin cfg.slotIntervalMin cfg.slotRounding)).insertionSort
          (altLe (roundToSlot rawMin cfg.slotIntervalMin cfg.slotRounding))) []
      rw [heq, List.nil_append]
      apply altsOrdered_map_of_sorted
      · intro t htm
        have h1 := hsub.subset htm
        have h2 := (List.perm_insertionSort _ _).subset h1
        have h3 := (List.mem_filter.mp h2).1
        have hbounds := slotsFromTo_mem h3
        have hs0 := parseTimeToMinutes_bounds hps
        have hs1 := parseTimeToMinutes_bounds hpe
        omega
      · exact List.Pairwise.sublist hsub (List.sorted_insertionSort _ _)
    · exact List.Pairwise.nil

theorem findNextDayGo_mem_time (cfg : CapacityConfig) (store : List Reservation)
    (rid : String) (timeMin? : Option Int) (ps : Int) (ex : Option String) :
    ∀ (fuel : Nat) (cur : DateYMD) (acc : List DateTimeAlt) (x : DateTimeAlt),
      x ∈ findNextDayGo cfg store rid timeMin? ps ex fuel cur acc →
      x ∈ acc ∨ ∃ tm, timeMin? = some tm ∧ x.time = minutesToHHMM tm := by
  intro fuel
  induction fuel with
  | zero => intro cur acc x hx; exact Or.inl hx
  | succ n ih =>
    intro cur acc x hx
    unfold findNextDayGo at hx
    split at hx
    · exact Or.inl hx
    · split at hx
      · exact ih _ _ _ hx
      · split at hx
        · exact ih _ _ _ hx
        next tm =>
          split at hx
          · split at hx
            · rcases ih _ _ _ hx with h | h
              · rcases List.mem_append.mp h with h' | h'
                · exact Or.inl h'
                · rcases List.mem_singleton.mp h' with rfl
                  exact Or.inr ⟨tm, rfl, rfl⟩
              · exact Or.inr h
            · exact ih _ _ _ hx
          · exact ih _ _ _ hx

theorem findNextDayAlternatives_mem_time (cfg : CapacityConfig)
    (store : List Reservation) (rid sd : String) (timeMin? : Option Int) (ps : Int)
    (ex : Option String) (x : DateTimeAlt)
    (hx : x ∈ findNextDayAlternatives cfg store rid sd timeMin? ps ex) :
    ∃ tm, timeMin? = some tm ∧ x.time = minutesToHHMM tm := by
  unfold findNextDayAlternatives at hx
  split at hx
  · simp at hx
  · rcases findNextDayGo_mem_time cfg store rid timeMin? ps ex 7 _ [] x hx with h | h
    · simp at h
    · exact h

/-- On a closed date the (next-day) alternatives all propose the same time
of day, so they are ordered with respect to any requested time. -/
theorem closed_alternatives_ordered (cfg : CapacityConfig) (store : List Reservation)
    (rid date time : String) (ps : Int) (ex : Option String) (req : Int)
    (h : date ∈ cfg.closedDates) :
    AltsOrderedBy req
      (AvailabilityService.check cfg store rid date time ps ex).alternatives := by
  unfold AvailabilityService.check
  rw [if_pos h]
  unfold AltsOrderedBy
  apply List.pairwise_of_forall_mem_list
  intro a ha b hb
  obtain ⟨tm, htm, hat⟩ := findNextDayAlternatives_mem_time cfg store rid date _ ps ex a ha
  obtain ⟨tm', htm', hbt⟩ := findNextDayAlternatives_mem_time cfg store rid date _ ps ex b hb
  rw [htm] at htm'
  cases htm'
  have : altDistTime req a = altDistTime req b := by
    unfold altDistTime
    rw [hat, hbt]
  exact Or.inr ⟨by rw [this], le_of_eq (by rw [this])⟩

/-- C8 (amended): every alternatives list of the availability check and of
`suggestAlternativeTimesByTables` has at most 2 entries; the ordering by
ascending distance from the (slot-rounded) requested time with the earlier
time first on ties holds for `findSmartAlternatives` (the `turn_end` and
`capacity` lists), for `suggestAlternativeTimesByTables`, and for the
closed-date lists — but not for day-spanning out-of-hours lists, which are
ordered by day and then time of day instead. -/
theorem alternatives_bounded_and_ordered :
    (∀ (cfg : CapacityConfig) (store : List Reservation) (rid date time : String)
      (ps : Int) (ex : Option String),
      (AvailabilityService.check cfg store rid date time ps ex).alternatives.length ≤ 2) ∧
    (∀ (cfg : CapacityConfig) (rid date time : String) (ps : Int)
      (tables : List RestaurantTable) (reservations : List Reservation),
      (suggestAlternativeTimesByTables cfg rid date time ps tables reservations 2).length
        ≤ 2) ∧
    (∀ (cfg : CapacityConfig) (store : List Reservation) (rid date : String)
      (req ps : Int) (shift : ShiftRange) (ex : Option String),
      1 ≤ cfg.standardDurationMin →
      AltsOrderedBy req (findSmartAlternatives cfg store rid date req ps shift ex)) ∧
    (∀ (cfg : CapacityConfig) (rid date time : String) (ps : Int)
      (tables : List RestaurantTable) (reservations : List Reservation) (rawMin : Int),
      1 ≤ cfg.standardDurationMin → parseTimeToMinutes time = some rawMin →
      AltsOrderedBy (roundToSlot rawMin cfg.slotIntervalMin cfg.slotRounding)
        (suggestAlternativeTimesByTables cfg rid date time ps tables reservations 2)) ∧
    (∀ (cfg : CapacityConfig) (store : List Reservation) (rid date time : String)
      (ps : Int) (ex : Option String) (req : Int), date ∈ cfg.closedDates →
      AltsOrderedBy req
        (AvailabilityService.check cfg store rid date time ps ex).alternatives) :=
  ⟨fun cfg store rid date time ps ex =>
      check_alternatives_length cfg store rid date time ps ex,
   fun cfg rid date time ps tables reservations =>
      suggestAlternativeTimesByTables_length cfg rid date time ps tables reservations,
   fun cfg store rid date req ps shift ex hdur =>
      findSmartAlternatives_ordered cfg store rid date req ps shift ex hdur,
   fun cfg rid date time ps tables reservations rawMin hdur hparse =>
      suggestAlternativeTimes_ordered cfg rid date time ps tables reservations rawMin
        hdur hparse,
   fun cfg store rid date time ps ex req h =>
      closed_alternatives_ordered cfg store rid date time ps ex req h⟩

/-- Witness for the amended C8 at concrete inputs. -/
theorem alternatives_bounded_and_ordered_witness :
    (AvailabilityService.check RESERVATION_CONFIG [] "r1" "2026-05-20" "20:30" 2
      none).alternatives.length ≤ 2 ∧
    AltsOrderedBy 1230
      (findSmartAlternatives RESERVATION_CONFIG [] "r1" "2026-05-20" 1230 2
        ⟨"20:00", "23:30"⟩ none) ∧
    AltsOrderedBy (roundToSlot 1230 RESERVATION_CONFIG.slotIntervalMin
        RESERVATION_CONFIG.slotRounding)
      (suggestAlternativeTimesByTables RESERVATION_CONFIG "r1" "2026-05-20" "20:30" 2 [] []
        2) ∧
    AltsOrderedBy 1230
      (AvailabilityService.check RESERVATION_CONFIG [] "r1" "2026-01-01" "20:30" 2
        none).alternatives :=
  ⟨alternatives_bounded_and_ordered.1 RESERVATION_CONFIG [] "r1" "2026-05-20" "20:30" 2
      none,
   alternatives_bounded_and_ordered.2.2.1 RESERVATION_CONFIG [] "r1" "2026-05-20" 1230 2
      ⟨"20:00", "23:30"⟩ none (by decide),
   alternatives_bounded_and_ordered.2.2.2.1 RESERVATION_CONFIG "r1" "2026-05-20" "20:30" 2
      [] [] 1230 (by decide) (by decide),
   alternatives_bounded_and_ordered.2.2.2.2 RESERVATION_CONFIG [] "r1" "2026-01-01"
      "20:30" 2 none 1230 (by decide)⟩

/-- C8 (counterexample): an out-of-hours request at `"23:45"` on an open
date yields two next-day alternatives `13:00` and `13:30`, which are in
descending — not ascending — distance from the requested time. -/
theorem check_alternatives_order_counterexample :
    c8CheckResult.reason = some .out_of_hours ∧
    c8CheckResult.alternatives =
      [⟨"2026-05-21", "13:00"⟩, ⟨"2026-05-21", "13:30"⟩] ∧
    parseTimeToMinutes "23:45" = some 1425 ∧
    ¬ AltsOrderedBy 1425 c8CheckResult.alternatives := by
  decide

end RestBot
